import Mathlib

/-!
# SWMM_Comparison — verification of the spec's claims against the code

Shallow embedding of the comparison pipeline of this repository
(`src/core_web.py`, `src/core_results.py`): the geometry extractor
(`_parse_geom_iter`), the spatial index (`SpatialIndex`), the rename
heuristics (`_build_node_renames`, `_build_link_renames`,
`_build_sub_renames`, `_apply_renames_to_pr2`,
`spatial_reconcile_and_remap_using_geom`), the diff engine
(`compare_sections`, `_calculate_slope`, `_calculate_field_diffs`,
`_filter_changes_by_tolerance`, the force-renamed-into-changed post-pass of
`run_compare`) and the report table parser (`parse_row_by_schema`).

Modelling conventions, stated once:

* Python `dict`s are insertion-ordered association lists (`AList`); `aset`
  updates a present key in place and appends an absent one, exactly like a
  Python dict assignment; `apop` removes an entry, like `dict.pop`.
* Python `float`s are modelled as `ℚ`.  Every numeric literal in the source
  is decimal and therefore exact in `ℚ`; the idealization ignores binary
  rounding, which none of the claims depends on.  `float(...)` (which can
  raise `ValueError`) is modelled by the `Option`-valued `pyFloat?`,
  restricted to the decimal/exponent forms the repository's inputs use.
* `math.hypot` has no exact rational counterpart, and the source only ever
  *compares* distances, so the embedding carries *squared* distances
  (`dist2_m2_xy` for `_dist_m_xy`): squaring is strictly monotone on
  nonnegative reals, making every comparison in the source exactly
  equivalent.  The one place a distance is *added* to a penalty
  (`score = (0 or 1)*1000 + dcent` in the link pass) is modelled as the
  lexicographic pair (penalty, squared centroid distance), equivalent
  because candidates from the 3×3 grid neighbourhood of 500 ft cells are
  always far closer than 1000 m apart.  `_polyline_length_m` (a sum of
  square roots, used only by the link pass, which no claim exercises beyond
  the empty case) is abstracted as an explicit function parameter `lenM`;
  theorems quantify over it.
* Python `set` iteration order is unspecified; wherever the source iterates
  a set (`u1`, `u2`, key sets) the embedding uses first-appearance order.
  No claim below depends on the choice: theorems either quantify over
  inputs or use concrete inputs whose behaviour is order-independent.
* Python's stable `sorted` is modelled by a stable insertion sort
  (`sortLe`); stability makes the result unique, so any stable sort agrees.
-/

namespace SWMM

unseal Rat.add Rat.mul Rat.sub Rat.inv Rat.ofScientific

/-! ## Python-style association lists (insertion-ordered dicts) -/

/-- A Python `dict` with string keys: an insertion-ordered association list. -/
abbrev AList (α : Type) := List (String × α)

/-- `d.get(k)` / `d[k]`. -/
def alookup {α : Type} (m : AList α) (k : String) : Option α :=
  match m with
  | [] => none
  | (k0, v) :: rest => if k0 = k then some v else alookup rest k

/-- `list(d.keys())`. -/
def akeys {α : Type} (m : AList α) : List String := m.map Prod.fst

/-- `k in d`. -/
def amem {α : Type} (m : AList α) (k : String) : Bool := (alookup m k).isSome

/-- `d[k] = v`: update in place if present, append if absent. -/
def aset {α : Type} (m : AList α) (k : String) (v : α) : AList α :=
  match m with
  | [] => [(k, v)]
  | (k0, v0) :: rest => if k0 = k then (k0, v) :: rest else (k0, v0) :: aset rest k v

/-- `d.pop(k)`: remove the entry for `k` (if present). -/
def apop {α : Type} (m : AList α) (k : String) : AList α :=
  match m with
  | [] => []
  | (k0, v0) :: rest => if k0 = k then rest else (k0, v0) :: apop rest k

/-! ## A stable insertion sort, modelling Python's stable `sorted` -/

/-- Insert `x` after every earlier element `y` with `le y x`: the stable
position. -/
def insertLe {α : Type} (le : α → α → Bool) (x : α) : List α → List α
  | [] => [x]
  | y :: ys => if le y x then y :: insertLe le x ys else x :: y :: ys

/-- Stable sort by `le` (processes left to right, inserting stably). -/
def sortLe {α : Type} (le : α → α → Bool) (xs : List α) : List α :=
  xs.foldl (fun acc x => insertLe le x acc) []

/-- `sorted(...)` on strings (Python sorts strings by code point). -/
def sortStr (xs : List String) : List String :=
  sortLe (fun a b => (compare a b).isLE) xs

/-! ## Python string helpers -/

/-- Python whitespace (`str.strip` default set, also `\s` in `re`). -/
def pyIsSpace (c : Char) : Bool :=
  c == ' ' || c == '\t' || c == '\n' || c == '\x0d' || c == '\x0b' || c == '\x0c'

/-- `s.strip()`. -/
def pyStrip (s : String) : String :=
  String.mk (((s.toList.dropWhile pyIsSpace).reverse.dropWhile pyIsSpace).reverse)

/-- `s.lstrip()`. -/
def pyLStrip (s : String) : String :=
  String.mk (s.toList.dropWhile pyIsSpace)

/-- `s.startswith(pre)` (per-character, like Python). -/
def pyStartsWith (s pre : String) : Bool := pre.toList.isPrefixOf s.toList

/-- `s.endswith(suf)`. -/
def pyEndsWith (s suf : String) : Bool := suf.toList.isSuffixOf s.toList

/-- `s.upper()` (the repository's section names are ASCII). -/
def pyToUpper (s : String) : String := String.mk (s.toList.map Char.toUpper)

/-- `s.lower()`. -/
def pyToLower (s : String) : String := String.mk (s.toList.map Char.toLower)

/-- Tokenizing helper for `re.split(r"\s+", s)` on an already-stripped
string: split on runs of whitespace, no empty tokens. -/
def pyWordsAux : List Char → List Char → List String
  | [], acc => if acc.isEmpty then [] else [String.mk acc.reverse]
  | c :: cs, acc =>
    if pyIsSpace c then
      if acc.isEmpty then pyWordsAux cs []
      else String.mk acc.reverse :: pyWordsAux cs []
    else pyWordsAux cs (c :: acc)

/-- `re.split(r"\s+", s)` for a stripped string (= `s.split()`). -/
def pyWords (s : String) : List String := pyWordsAux s.toList []

/-! ## Python `float(...)`, modelled over `ℚ` -/

/-- Digit-string value. -/
def digitsToNat (ds : List Char) : ℕ :=
  ds.foldl (fun a c => a * 10 + (c.toNat - 48)) 0

/-- `float(s)`, returning `none` where Python raises `ValueError`.
Covers the signed decimal/exponent forms (`-12`, `3.5`, `.5`, `2.`,
`1e-3`); the exotic accepted spellings (`inf`, `nan`, `1_0`) do not occur
in this repository's data and are mapped to `none`. -/
def pyFloat? (s : String) : Option ℚ :=
  let cs := (pyStrip s).toList
  let signAndRest : ℚ × List Char :=
    match cs with
    | '+' :: rest => (1, rest)
    | '-' :: rest => (-1, rest)
    | rest => (1, rest)
  let sign := signAndRest.1
  let cs1 := signAndRest.2
  let intDs := cs1.takeWhile Char.isDigit
  let cs2 := cs1.dropWhile Char.isDigit
  let fracAndRest : List Char × List Char :=
    match cs2 with
    | '.' :: rest => (rest.takeWhile Char.isDigit, rest.dropWhile Char.isDigit)
    | rest => ([], rest)
  let fracDs := fracAndRest.1
  let cs3 := fracAndRest.2
  if intDs.isEmpty && fracDs.isEmpty then none
  else
    let mant : ℚ :=
      (digitsToNat intDs : ℚ) + (digitsToNat fracDs : ℚ) / (10 : ℚ) ^ fracDs.length
    match cs3 with
    | [] => some (sign * mant)
    | e :: rest =>
      if e == 'e' || e == 'E' then
        let esignAndRest : ℤ × List Char :=
          match rest with
          | '+' :: r => (1, r)
          | '-' :: r => (-1, r)
          | r => (1, r)
        let esign := esignAndRest.1
        let r1 := esignAndRest.2
        let eDs := r1.takeWhile Char.isDigit
        let r2 := r1.dropWhile Char.isDigit
        if eDs.isEmpty || !r2.isEmpty then none
        else some (sign * mant * (10 : ℚ) ^ (esign * (digitsToNat eDs : ℤ)))
      else none

/-- Kernel-computable equality for parser results. -/
instance {ε α : Type} [DecidableEq ε] [DecidableEq α] : DecidableEq (Except ε α) := fun a b =>
  match a, b with
  | .ok x, .ok y =>
    if h : x = y then .isTrue (by rw [h]) else .isFalse (by intro hh; cases hh; exact h rfl)
  | .ok _, .error _ => .isFalse (by intro hh; cases hh)
  | .error _, .ok _ => .isFalse (by intro hh; cases hh)
  | .error e, .error f =>
    if h : e = f then .isTrue (by rw [h]) else .isFalse (by intro hh; cases hh; exact h rfl)

/-! ## Data model -/

/-- `SWMMGeometry` (src/core_web.py): node points, link polylines, polygon
rings, coordinates in feet. -/
structure SWMMGeometry where
  nodes : AList (ℚ × ℚ)
  links : AList (List (ℚ × ℚ))
  subpolys : AList (List (List (ℚ × ℚ)))
deriving Repr, DecidableEq

/-- `INPParseResult` (src/core_web.py): the parsed document. -/
structure INPParseResult where
  sections : AList (AList (List String))
  headers : AList (List String)
  tags : AList String
  descriptions : AList String
deriving Repr, DecidableEq

/-! ## Geometry extractor: `_parse_geom_iter` (src/core_web.py:828-907)

The loop state carries the four accumulator dicts and the current bracketed
section.  The unguarded `float(...)` calls of the source are modelled in the
`Except` monad: where Python raises `ValueError`, the embedding returns
`.error "ValueError"`. -/

/-- The accumulators of `_parse_geom_iter`'s line loop. -/
structure GeomState where
  nodes_raw : AList (ℚ × ℚ)
  vertices_raw : AList (List (ℚ × ℚ))
  links_endpoints : AList (String × String)
  subpolys_raw : AList (List (List (ℚ × ℚ)))
  sec? : Option String
deriving Repr, DecidableEq

def initGeomState : GeomState := ⟨[], [], [], [], none⟩

/-- `float(s1), float(s2)`, raising `ValueError` where Python does. -/
def pyFloat2 (s1 s2 : String) : Except String (ℚ × ℚ) :=
  match pyFloat? s1 with
  | none => .error "ValueError"
  | some x =>
    match pyFloat? s2 with
    | none => .error "ValueError"
    | some y => .ok (x, y)

/-- The bracketed section names treated as conduit-like by the geometry
extractor. -/
def linkGeomSections : List String :=
  ["[CONDUITS]", "[PUMPS]", "[ORIFICES]", "[WEIRS]", "[OUTLETS]"]

/-- The `[POLYGONS]` ring rule: if the current (last) ring has ≥ 3 points
and its first equals its last, start a new ring with the point; otherwise
append the point to the current ring. -/
def polygonAdd (rings : List (List (ℚ × ℚ))) (pt : ℚ × ℚ) : List (List (ℚ × ℚ)) :=
  let current := rings.getLastD []
  if 3 ≤ current.length ∧ current.head? = current.getLast? then
    rings ++ [[pt]]
  else rings.dropLast ++ [current ++ [pt]]

/-- One line of `_parse_geom_iter`'s loop. -/
def geomStep (st : GeomState) (raw : String) : Except String GeomState :=
  let line := pyStrip raw
  if line = "" ∨ pyStartsWith line ";" then .ok st
  else if pyStartsWith line "[" ∧ pyEndsWith line "]" then
    .ok { st with sec? := some (pyToUpper line) }
  else
    let parts := pyWords line
    if st.sec? = some "[COORDINATES]" ∧ 3 ≤ parts.length then
      match pyFloat2 (parts.getD 1 "") (parts.getD 2 "") with
      | .error e => .error e
      | .ok xy => .ok { st with nodes_raw := aset st.nodes_raw (parts.getD 0 "") xy }
    else if st.sec? = some "[VERTICES]" ∧ 3 ≤ parts.length then
      match pyFloat2 (parts.getD 1 "") (parts.getD 2 "") with
      | .error e => .error e
      | .ok xy =>
        let lid := parts.getD 0 ""
        let vr := aset st.vertices_raw lid ((alookup st.vertices_raw lid).getD [] ++ [xy])
        .ok { st with vertices_raw := vr }
    else if (∃ s, st.sec? = some s ∧ s ∈ linkGeomSections) ∧ 3 ≤ parts.length then
      let le0 := aset st.links_endpoints (parts.getD 0 "") (parts.getD 1 "", parts.getD 2 "")
      .ok { st with links_endpoints := le0 }
    else if st.sec? = some "[POLYGONS]" ∧ 3 ≤ parts.length then
      match pyFloat2 (parts.getD 1 "") (parts.getD 2 "") with
      | .error e => .error e
      | .ok xy =>
        let sub := parts.getD 0 ""
        let rings := (alookup st.subpolys_raw sub).getD [[]]
        .ok { st with subpolys_raw := aset st.subpolys_raw sub (polygonAdd rings xy) }
    else .ok st

/-- An endpoint's contribution to the polyline: its coordinate when it
resolves, nothing otherwise (`if n in nodes_raw: coords.append(...)`). -/
def optPt (o : Option (ℚ × ℚ)) : List (ℚ × ℚ) :=
  match o with
  | some c => [c]
  | none => []

/-- The candidate polyline for one link row: resolvable start coordinate,
vertices in file order, resolvable end coordinate. -/
def link_coords (nodes : AList (ℚ × ℚ)) (verts : AList (List (ℚ × ℚ)))
    (lid n1 n2 : String) : List (ℚ × ℚ) :=
  optPt (alookup nodes n1) ++ (alookup verts lid).getD [] ++ optPt (alookup nodes n2)

/-- The post-loop assembly: stored only when the assembled list has at
least 2 points. -/
def assemble_links (nodes : AList (ℚ × ℚ)) (verts : AList (List (ℚ × ℚ)))
    (eps : AList (String × String)) : AList (List (ℚ × ℚ)) :=
  eps.filterMap (fun e =>
    if 2 ≤ (link_coords nodes verts e.1 e.2.1 e.2.2).length
    then some (e.1, link_coords nodes verts e.1 e.2.1 e.2.2) else none)

/-- `_parse_geom_iter` over the file's lines. -/
def parse_geom_iter (lines : List String) : Except String SWMMGeometry :=
  match lines.foldlM geomStep initGeomState with
  | .error e => .error e
  | .ok st =>
    .ok ⟨st.nodes_raw,
         assemble_links st.nodes_raw st.vertices_raw st.links_endpoints,
         st.subpolys_raw⟩

/-! ## Spatial helpers (src/core_web.py:919-980), in squared meters -/

def FEET_TO_M : ℚ := 0.3048

/-- Squared `_dist_m_xy` (the source returns `hypot`; see the header note on
squared distances). -/
def dist2_m2_xy (p1 p2 : ℚ × ℚ) : ℚ :=
  ((p2.1 - p1.1) * FEET_TO_M) ^ 2 + ((p2.2 - p1.2) * FEET_TO_M) ^ 2

/-- `_centroid_xy` on an already-flattened point list (the source's
`isinstance` dispatch flattens a list of rings first; ring callers pass
`rings.flatten`). -/
def centroid_pts (points : List (ℚ × ℚ)) : Option (ℚ × ℚ) :=
  if points.isEmpty then none
  else some ((points.map Prod.fst).sum / (points.length : ℚ),
             (points.map Prod.snd).sum / (points.length : ℚ))

/-- `_bbox_area_m2` on an already-flattened point list. -/
def bbox_area_m2_pts (points : List (ℚ × ℚ)) : ℚ :=
  match points with
  | [] => 0
  | p :: rest =>
    let xs := (p :: rest).map Prod.fst
    let ys := (p :: rest).map Prod.snd
    let w_ft := xs.foldl max p.1 - xs.foldl min p.1
    let h_ft := ys.foldl max p.2 - ys.foldl min p.2
    (w_ft * FEET_TO_M) * (h_ft * FEET_TO_M)

/-- `_ratio_close`. -/
def ratio_close (a b tol : ℚ) : Bool :=
  if a = 0 ∨ b = 0 then false
  else decide ((1 - tol) ≤ a / b ∧ a / b ≤ 1 + tol)

/-! ## `SpatialIndex` (src/core_web.py:994-1029)

The grid is represented by the insertion list plus the cell function: the
bucket of a cell is the sublist of entries hashing to it, in insertion
order — extensionally the `defaultdict(list)` grid of the source. -/

/-- `int(x // cell_size)` for both axes. -/
def get_cell (cell_size : ℚ) (x y : ℚ) : ℤ × ℤ := (⌊x / cell_size⌋, ⌊y / cell_size⌋)

structure SpatialIndex where
  cell_size : ℚ
  entries : List (String × ℚ × ℚ)
deriving Repr, DecidableEq

/-- `SpatialIndex.add`. -/
def SpatialIndex.add (idx : SpatialIndex) (id : String) (x y : ℚ) : SpatialIndex :=
  { idx with entries := idx.entries ++ [(id, x, y)] }

/-- `self.grid.get(cell, [])`. -/
def SpatialIndex.cellEntries (idx : SpatialIndex) (cell : ℤ × ℤ) : List (String × ℚ × ℚ) :=
  idx.entries.filter (fun e => get_cell idx.cell_size e.2.1 e.2.2 = cell)

/-- `SpatialIndex.query_candidates`: every entry in the 3×3 neighbourhood of
the query's cell, in the source's `dx`-outer/`dy`-inner order. -/
def SpatialIndex.query_candidates (idx : SpatialIndex) (x y : ℚ) : List (String × ℚ × ℚ) :=
  let c := get_cell idx.cell_size x y
  (([-1, 0, 1] : List ℤ).map (fun dx =>
    (([-1, 0, 1] : List ℤ).map (fun dy =>
      idx.cellEntries (c.1 + dx, c.2 + dy))).flatten)).flatten

/-! ## Rename heuristics (src/core_web.py:1030-1355) -/

def node_secs : List String := ["JUNCTIONS", "OUTFALLS", "DIVIDERS", "STORAGE"]
def link_secs : List String := ["CONDUITS", "PUMPS", "ORIFICES", "WEIRS", "OUTLETS"]

/-- The union of the id sets of the given sections (Python builds a `set`;
the embedding keeps first-appearance order, on which no claim depends). -/
def section_ids (pr : INPParseResult) (secs : List String) : List String :=
  (secs.flatMap (fun s => akeys ((alookup pr.sections s).getD []))).eraseDups

/-- The spatial index over the new-side unique nodes. -/
def node_index (g2nodes : AList (ℚ × ℚ)) (u2 : List String) : SpatialIndex :=
  u2.foldl (fun idx new_id =>
      match alookup g2nodes new_id with
      | some p => idx.add new_id p.1 p.2
      | none => idx) (SpatialIndex.mk 500 [])

/-- One candidate of the inner scan of `_build_node_renames`: bounding-box
pre-check, then keep the strictly nearer of the two (squared distances). -/
def node_best_step (eps_m tol_ft : ℚ) (p1 : ℚ × ℚ)
    (best : Option (String × ℚ)) (c : String × ℚ × ℚ) : Option (String × ℚ) :=
  if tol_ft < |p1.1 - c.2.1| ∨ tol_ft < |p1.2 - c.2.2| then best
  else
    let d2 := dist2_m2_xy p1 (c.2.1, c.2.2)
    match best with
    | none => if d2 < eps_m ^ 2 then some (c.1, d2) else best
    | some b => if d2 < eps_m ^ 2 ∧ d2 < b.2 then some (c.1, d2) else best

/-- One old id of `_build_node_renames`: append its single best pair, if
any. -/
def node_pair_step (eps_m tol_ft : ℚ) (g1nodes : AList (ℚ × ℚ)) (idx : SpatialIndex)
    (pairs : List (String × String × ℚ)) (old_id : String) : List (String × String × ℚ) :=
  match alookup g1nodes old_id with
  | none => pairs
  | some p1 =>
    match (idx.query_candidates p1.1 p1.2).foldl (node_best_step eps_m tol_ft p1) none with
    | some b => pairs ++ [(old_id, b.1, b.2)]
    | none => pairs

/-- The greedy claim-and-remove assignment over the sorted pairs. -/
def greedy_claim_step (acc : AList String × List String) (p : String × String × ℚ) :
    AList String × List String :=
  if acc.2.contains p.2.1 then acc
  else (acc.1 ++ [(p.1, p.2.1)], acc.2 ++ [p.2.1])

/-- `_build_node_renames`: for each old id, the nearest unused new-side
candidate within `eps_m`; the per-old-id best pairs are sorted ascending by
distance and assigned greedily with claim-and-remove.  Distances are carried
squared (see the header note). -/
def build_node_renames (pr1 pr2 : INPParseResult) (g1 g2 : SWMMGeometry)
    (eps_m : ℚ) : AList String :=
  let ids1 := section_ids pr1 node_secs
  let ids2 := section_ids pr2 node_secs
  let u1 := ids1.filter (fun nid => !(ids2.contains nid))
  let u2 := ids2.filter (fun nid => !(ids1.contains nid))
  let idx := node_index g2.nodes u2
  let tol_ft := eps_m / FEET_TO_M
  let pairs := u1.foldl (node_pair_step eps_m tol_ft g1.nodes idx) []
  let sorted := sortLe (fun a b => decide (a.2.2 ≤ b.2.2)) pairs
  (sorted.foldl greedy_claim_step ([], [])).1

/-- Modelled from the words of claim C4 / spec §4.4 pass 1, for comparison
with `build_node_renames`: collect EVERY (old, new, distance) candidate pair
whose distance is within `eps_m`, sort all pairs ascending by distance
globally, then assign greedily with claim-and-remove (each old and each new
id used at most once). -/
def node_renames_claimC4 (pr1 pr2 : INPParseResult) (g1 g2 : SWMMGeometry)
    (eps_m : ℚ) : AList String :=
  let ids1 := section_ids pr1 node_secs
  let ids2 := section_ids pr2 node_secs
  let u1 := ids1.filter (fun nid => !(ids2.contains nid))
  let u2 := ids2.filter (fun nid => !(ids1.contains nid))
  let pairs := u1.flatMap (fun old_id =>
    match alookup g1.nodes old_id with
    | none => []
    | some p1 =>
      u2.filterMap (fun new_id =>
        match alookup g2.nodes new_id with
        | none => none
        | some p2 =>
          let d2 := dist2_m2_xy p1 p2
          if d2 ≤ eps_m ^ 2 then some (old_id, new_id, d2) else none))
  let sorted := sortLe (fun a b => decide (a.2.2 ≤ b.2.2)) pairs
  (sorted.foldl (fun (acc : AList String × List String × List String) p =>
      if acc.2.1.contains p.1 ∨ acc.2.2.contains p.2.1 then acc
      else (acc.1 ++ [(p.1, p.2.1)], acc.2.1 ++ [p.1], acc.2.2 ++ [p.2.1]))
    ([], [], [])).1

/-- The `endpoints` helper of `_build_link_renames`: first two value tokens
of the first conduit-like row (with ≥ 2 values) carrying the id; `(None,
None)` when there is none. -/
def endpoints (pr : INPParseResult) (lid : String) : Option String × Option String :=
  match link_secs.findSome? (fun s =>
      match alookup ((alookup pr.sections s).getD []) lid with
      | some (v0 :: v1 :: _) => some (v0, v1)
      | _ => none) with
  | some (a, b) => (some a, some b)
  | none => (none, none)

/-- Python's `set(e1) == set(e2)` on endpoint pairs. -/
def pairSetEq (a b : Option String × Option String) : Bool :=
  (a.1 == b.1 || a.1 == b.2) && (a.2 == b.1 || a.2 == b.2)
    && (b.1 == a.1 || b.1 == a.2) && (b.2 == a.1 || b.2 == a.2)

/-- `{v: k for k, v in m.items()}` (later duplicates overwrite). -/
def invert (m : AList String) : AList String :=
  m.foldl (fun acc p => aset acc p.2 p.1) []

/-- The link-pass score `(0 if endpoint_ok else 1)*1000 + dcent`, as the
equivalent lexicographic comparison (see the header note). -/
def scoreLt (a b : ℕ × ℚ) : Prop := a.1 < b.1 ∨ (a.1 = b.1 ∧ a.2 < b.2)

instance : DecidablePred (fun p : (ℕ × ℚ) × ℕ × ℚ => scoreLt p.1 p.2) :=
  fun _ => by unfold scoreLt; infer_instance

instance (a b : ℕ × ℚ) : Decidable (scoreLt a b) := by unfold scoreLt; infer_instance

/-- The cached per-candidate metadata of `_build_link_renames`. -/
structure LinkMeta where
  coords : List (ℚ × ℚ)
  lenM : ℚ
  endpts : Option String × Option String
  centroid : ℚ × ℚ
deriving Repr, DecidableEq

/-- `_build_link_renames`.  `lenM` abstracts `_polyline_length_m` (a sum of
square roots; see the header note). -/
def build_link_renames (pr1 pr2 : INPParseResult) (g1 g2 : SWMMGeometry)
    (node_renames : AList String) (lenM : List (ℚ × ℚ) → ℚ)
    (eps_centroid_m len_tol : ℚ) : AList String :=
  let ids1 := section_ids pr1 link_secs
  let ids2 := section_ids pr2 link_secs
  let u1 := ids1.filter (fun l => !(ids2.contains l))
  let u2 := ids2.filter (fun l => !(ids1.contains l))
  let idxMeta := u2.foldl (fun (im : SpatialIndex × AList LinkMeta) new_id =>
      let coords2 := (alookup g2.links new_id).getD []
      if coords2.length < 2 then im
      else
        match centroid_pts coords2 with
        | none => im
        | some c2 =>
          (im.1.add new_id c2.1 c2.2,
           aset im.2 new_id ⟨coords2, lenM coords2, endpoints pr2 new_id, c2⟩))
    (SpatialIndex.mk 500 [], [])
  let idx := idxMeta.1
  let meta := idxMeta.2
  let inv_node := invert node_renames
  (u1.foldl (fun (acc : AList String × List String) old_id =>
    let coords1 := (alookup g1.links old_id).getD []
    if coords1.length < 2 then acc
    else
      let e1 := endpoints pr1 old_id
      let len1 := lenM coords1
      match centroid_pts coords1 with
      | none => acc
      | some c1 =>
        let best := (idx.query_candidates c1.1 c1.2).foldl
          (fun (best : Option (String × ℕ × ℚ)) cand =>
            if acc.2.contains cand.1 then best
            else
              match alookup meta cand.1 with
              | none => best
              | some m2 =>
                let e2m := (m2.endpts.1.map (fun x => (alookup inv_node x).getD x),
                            m2.endpts.2.map (fun x => (alookup inv_node x).getD x))
                let endpoint_ok := pairSetEq e1 e2m
                if !(ratio_close (max len1 (1/1000000)) (max m2.lenM (1/1000000)) len_tol)
                    && !endpoint_ok then best
                else
                  let dcent2 := dist2_m2_xy c1 m2.centroid
                  if eps_centroid_m ^ 2 < dcent2 ∧ endpoint_ok = false then best
                  else
                    let score : ℕ × ℚ := (if endpoint_ok then 0 else 1, dcent2)
                    match best with
                    | none => some (cand.1, score)
                    | some b => if scoreLt score b.2 then some (cand.1, score) else best)
          none
        match best with
        | some b => (acc.1 ++ [(old_id, b.1)], acc.2 ++ [b.1])
        | none => acc) (([], []) : AList String × List String)).1

/-- The cached per-candidate metadata of `_build_sub_renames`. -/
structure SubMeta where
  centroid : ℚ × ℚ
  area : ℚ
  poly : List (List (ℚ × ℚ))
deriving Repr, DecidableEq

/-- `_build_sub_renames`.  Note two faithful quirks of the source: the
`len(poly) < 3` guards count RINGS, not points; and the claim-and-remove
step executes `used_new.add(new_id)` where `new_id` is the (leaked) loop
variable of the candidate scan — i.e. the LAST candidate iterated, not the
assigned `best` (contrast `used_new.add(best)` in the link pass). -/
def build_sub_renames (pr1 pr2 : INPParseResult) (g1 g2 : SWMMGeometry)
    (eps_centroid_m area_tol : ℚ) : AList String :=
  let ids1 := akeys ((alookup pr1.sections "SUBCATCHMENTS").getD [])
  let ids2 := akeys ((alookup pr2.sections "SUBCATCHMENTS").getD [])
  let u1 := ids1.filter (fun s => !(ids2.contains s))
  let u2 := ids2.filter (fun s => !(ids1.contains s))
  let idxMeta := u2.foldl (fun (im : SpatialIndex × AList SubMeta) new_id =>
      let poly2 := (alookup g2.subpolys new_id).getD []
      if poly2.length < 3 then im
      else
        match centroid_pts poly2.flatten with
        | none => im
        | some c2 =>
          let a2 := bbox_area_m2_pts poly2.flatten
          (im.1.add new_id c2.1 c2.2,
           aset im.2 new_id ⟨c2, if a2 = 0 then 1 else a2, poly2⟩))
    (SpatialIndex.mk 1000 [], [])
  let idx := idxMeta.1
  let meta := idxMeta.2
  (u1.foldl (fun (acc : AList String × List String) old_id =>
    let poly1 := (alookup g1.subpolys old_id).getD []
    if poly1.length < 3 then acc
    else
      match centroid_pts poly1.flatten with
      | none => acc
      | some c1 =>
        let a1 :=
          let a := bbox_area_m2_pts poly1.flatten
          if a = 0 then 1 else a
        let cands := idx.query_candidates c1.1 c1.2
        let best := cands.foldl
          (fun (best : Option (String × ℚ)) cand =>
            if acc.2.contains cand.1 then best
            else
              match alookup meta cand.1 with
              | none => best
              | some m2 =>
                if !(ratio_close a1 m2.area area_tol) then best
                else
                  let dcent2 := dist2_m2_xy c1 m2.centroid
                  if eps_centroid_m ^ 2 < dcent2 then best
                  else
                    match best with
                    | none => some (cand.1, dcent2)
                    | some b => if dcent2 < b.2 then some (cand.1, dcent2) else best)
          none
        match best with
        | some b =>
          (acc.1 ++ [(old_id, b.1)],
           acc.2 ++ (match cands.getLast? with | some c => [c.1] | none => []))
        | none => acc) (([], []) : AList String × List String)).1

/-- `secmap[old_id] = secmap.pop(new_id)` guarded by
`new_id in secmap and old_id not in secmap`. -/
def rekey {α : Type} (m : AList α) (new_id old_id : String) : AList α :=
  match alookup m new_id with
  | some v => if amem m old_id then m else aset (apop m new_id) old_id v
  | none => m

def rekeyAll {α : Type} (m : AList α) (new_to_old : AList String) : AList α :=
  new_to_old.foldl (fun m p => rekey m p.1 p.2) m

/-- Apply `f` to `sections[sec]` when present (Python's
`pr.sections.get(sec, {})` returns a throwaway dict when absent, so
mutations are lost). -/
def updateSec (sections : AList (AList (List String)))
    (sec : String) (f : AList (List String) → AList (List String)) :
    AList (AList (List String)) :=
  match alookup sections sec with
  | some m => aset sections sec (f m)
  | none => sections

/-- `_apply_renames_to_pr2`, as a pure transform returning the normalized
document. -/
def apply_renames_to_pr2 (pr2 : INPParseResult)
    (node_ren link_ren sub_ren : AList String) : INPParseResult :=
  let node_new_to_old := invert node_ren
  let link_new_to_old := invert link_ren
  let sub_new_to_old := invert sub_ren
  let secs := node_secs.foldl (fun ss sec => updateSec ss sec (fun m => rekeyAll m node_new_to_old))
    pr2.sections
  let secs := link_secs.foldl (fun ss sec => updateSec ss sec (fun m =>
      let m := m.map (fun kv =>
        match kv.2 with
        | a :: b :: rest =>
          (kv.1, ((alookup node_new_to_old a).getD a) :: ((alookup node_new_to_old b).getD b) :: rest)
        | _ => kv)
      rekeyAll m link_new_to_old)) secs
  let secs := updateSec secs "SUBCATCHMENTS" (fun m => rekeyAll m sub_new_to_old)
  let tags := rekeyAll pr2.tags (node_new_to_old ++ link_new_to_old ++ sub_new_to_old)
  { pr2 with sections := secs, tags := tags }

/-- `_apply_renames_to_geometry`, as a pure transform. -/
def apply_renames_to_geometry (g2 : SWMMGeometry)
    (node_ren link_ren sub_ren : AList String) : SWMMGeometry :=
  { nodes := rekeyAll g2.nodes (invert node_ren),
    links := rekeyAll g2.links (invert link_ren),
    subpolys := rekeyAll g2.subpolys (invert sub_ren) }

/-- The `by_sec` grouping at the end of
`spatial_reconcile_and_remap_using_geom`: each old id is recorded under the
first listed section of `pr1` containing it. -/
def bySecAdd (by_sec : AList (AList String)) (secs : List String)
    (pr1 : INPParseResult) (ren : AList String) : AList (AList String) :=
  ren.foldl (fun bs p =>
    match secs.find? (fun sec => amem ((alookup pr1.sections sec).getD []) p.1) with
    | some sec => aset bs sec (aset ((alookup bs sec).getD []) p.1 p.2)
    | none => bs) by_sec

/-- `spatial_reconcile_and_remap_using_geom`: runs the three passes (with
the source's default tolerances), applies the renames, and returns the
normalized document and geometry together with the per-section RenameMap. -/
def spatial_reconcile_and_remap_using_geom (pr1 pr2 : INPParseResult)
    (g1 g2 : SWMMGeometry) (lenM : List (ℚ × ℚ) → ℚ) :
    INPParseResult × SWMMGeometry × AList (AList String) :=
  let node_ren := build_node_renames pr1 pr2 g1 g2 (0.5 * FEET_TO_M)
  let link_ren := build_link_renames pr1 pr2 g1 g2 node_ren lenM (5 * FEET_TO_M) 0.05
  let sub_ren := build_sub_renames pr1 pr2 g1 g2 (10 * FEET_TO_M) 0.10
  let pr2n := apply_renames_to_pr2 pr2 node_ren link_ren sub_ren
  let g2n := apply_renames_to_geometry g2 node_ren link_ren sub_ren
  let by_sec := bySecAdd [] node_secs pr1 node_ren
  let by_sec := bySecAdd by_sec link_secs pr1 link_ren
  let by_sec := sub_ren.foldl (fun bs p =>
      aset bs "SUBCATCHMENTS" (aset ((alookup bs "SUBCATCHMENTS").getD []) p.1 p.2)) by_sec
  (pr2n, g2n, by_sec)

/-! ## Diff engine (src/core_web.py:1368-1628) -/

/-- `DiffSection`. -/
structure DiffSection where
  added : List String
  removed : List String
  changed : AList (List String × List String)
deriving Repr, DecidableEq

def emptyDiffSection : DiffSection := ⟨[], [], []⟩

/-- The `added` list of one section (`sorted(keys2 - keys1)`). -/
def comp_added (secs1 secs2 : AList (AList (List String))) (sec : String) : List String :=
  sortStr ((akeys ((alookup secs2 sec).getD [])).filter
    (fun k => !((akeys ((alookup secs1 sec).getD [])).contains k)))

/-- The `changed` table of one section (ids in both with unequal values). -/
def comp_changed (secs1 secs2 : AList (AList (List String))) (sec : String) :
    AList (List String × List String) :=
  ((alookup secs1 sec).getD []).filterMap (fun kv =>
    match alookup ((alookup secs2 sec).getD []) kv.1 with
    | some v2 => if kv.2 ≠ v2 then some (kv.1, (kv.2, v2)) else none
    | none => none)

/-- `headers1.get(sec) or headers2.get(sec, [])`. -/
def comp_headers (headers1 headers2 : AList (List String)) (sec : String) : List String :=
  match alookup headers1 sec with
  | some h => if h = [] then (alookup headers2 sec).getD [] else h
  | none => (alookup headers2 sec).getD []

/-- One section of `compare_sections`' loop. -/
def compare_sections_step (secs1 secs2 : AList (AList (List String)))
    (headers1 headers2 : AList (List String))
    (acc : AList DiffSection × AList (List String)) (sec : String) :
    AList DiffSection × AList (List String) :=
  let added := comp_added secs1 secs2 sec
  let removed := comp_added secs2 secs1 sec
  let changed := comp_changed secs1 secs2 sec
  if added ≠ [] ∨ removed ≠ [] ∨ changed ≠ [] then
    (acc.1 ++ [(sec, ⟨added, removed, changed⟩)],
     acc.2 ++ [(sec, comp_headers headers1 headers2 sec)])
  else acc

/-- `compare_sections` (src/core_web.py:1407-1448; `src/core.py:57-67` is the
same logic without the progress callback).  Note `removed` is `added` with
the two documents swapped, as in the source. -/
def compare_sections (secs1 secs2 : AList (AList (List String)))
    (headers1 headers2 : AList (List String)) :
    AList DiffSection × AList (List String) :=
  let all_sections := sortStr ((akeys secs1 ++ akeys secs2).eraseDups)
  all_sections.foldl (compare_sections_step secs1 secs2 headers1 headers2) ([], [])

/-- Pairwise disjointness of a section's three id sets (the claim C6 /
spec §3 invariant). -/
def disjointDiff (d : DiffSection) : Prop :=
  (∀ x ∈ d.added, x ∉ d.removed) ∧ (∀ x ∈ d.added, x ∉ akeys d.changed)
    ∧ (∀ x ∈ d.removed, x ∉ akeys d.changed)

/-- `_calculate_slope`: `(InOffset - OutOffset) / Length`, with
`try/except` returning `None` on a missing or non-numeric `Length` and on
non-numeric offsets; a MISSING offset (row shorter than 5/6 fields)
defaults to `0.0`; `Length ≤ 0` short-circuits to `0.0` before the offsets
are even read.  The `sections` parameter is unused, as in the source. -/
def calculate_slope (conduit_vals : List String)
    (_sections : AList (AList (List String))) : Option ℚ :=
  match conduit_vals[2]? with
  | none => none
  | some ls =>
    match pyFloat? ls with
    | none => none
    | some length =>
      if length ≤ 0 then some 0
      else
        let inO : Option ℚ :=
          if 4 < conduit_vals.length then pyFloat? (conduit_vals.getD 4 "") else some 0
        let outO : Option ℚ :=
          if 5 < conduit_vals.length then pyFloat? (conduit_vals.getD 5 "") else some 0
        match inO, outO with
        | some i, some o => some ((i - o) / length)
        | _, _ => none

/-- The offset fallback inside `_calculate_slope`'s body, named for the
amended claim C3: a PRESENT offset field must parse (else the slope is
omitted), an ABSENT one defaults to `0.0`. -/
def offset_or_default (vals : List String) (i : ℕ) : Option ℚ :=
  if i < vals.length then pyFloat? (vals.getD i "") else some 0

/-- The `get_val` helper of `_calculate_field_diffs`. -/
def get_val (values : List String) (index : ℕ) : Option ℚ :=
  if index < values.length then pyFloat? (values.getD index "") else none

/-- `_calculate_field_diffs`. -/
def calculate_field_diffs (old_vals new_vals : List String)
    (headers : List String) (sec : String)
    (secs1? secs2? : Option (AList (AList (List String)))) : AList ℚ :=
  if headers = [] then []
  else if sec = "CONDUITS" then
    let base := ([("Length", 2), ("Roughness", 3), ("InOffset", 4), ("OutOffset", 5)]
      : List (String × ℕ)).foldl
      (fun ds fi =>
        match get_val old_vals fi.2, get_val new_vals fi.2 with
        | some o, some n => aset ds fi.1 (n - o)
        | _, _ => ds) []
    match secs1?, secs2? with
    | some s1, some s2 =>
      (match calculate_slope old_vals s1, calculate_slope new_vals s2 with
       | some sl1, some sl2 => aset base "Slope" (sl2 - sl1)
       | _, _ => base)
    | _, _ => base
  else if sec = "JUNCTIONS" then
    let oi := get_val old_vals 0
    let ni := get_val new_vals 0
    let od := get_val old_vals 1
    let nd := get_val new_vals 1
    let d : AList ℚ := []
    let d := match oi, ni with
      | some o, some n => aset d "InvertElev" (n - o)
      | _, _ => d
    let d := match od, nd with
      | some o, some n => aset d "MaxDepth" (n - o)
      | _, _ => d
    let d := match oi, od with
      | some i, some m => aset d "RimElevation_old" (i + m)
      | _, _ => d
    let d := match ni, nd with
      | some i, some m => aset d "RimElevation_new" (i + m)
      | _, _ => d
    match alookup d "RimElevation_old", alookup d "RimElevation_new" with
    | some ro, some rn => aset d "RimElevation_diff" (rn - ro)
    | _, _ => d
  else []

/-- The per-(section, field-index) tolerance key table of
`_filter_changes_by_tolerance` (`tolerances.get(KEY, 0)`). -/
def tol_for (tols : AList ℚ) (sec : String) (i : ℕ) : ℚ :=
  if sec = "CONDUITS" then
    if i = 2 then (alookup tols "CONDUIT_LENGTH").getD 0
    else if i = 3 then (alookup tols "CONDUIT_ROUGHNESS").getD 0
    else if i = 4 ∨ i = 5 then (alookup tols "CONDUIT_OFFSET").getD 0
    else 0
  else if sec = "JUNCTIONS" then
    if i = 0 then (alookup tols "JUNCTION_INVERT").getD 0
    else if i = 1 then (alookup tols "JUNCTION_DEPTH").getD 0
    else 0
  else 0

/-- One field position of the filter's inner loop: identical, or numeric on
both sides with a positive applicable tolerance covering the difference. -/
def field_ok (tols : AList ℚ) (sec : String) (old_p new_p : List String) (i : ℕ) : Bool :=
  let v1 := old_p.getD i ""
  let v2 := new_p.getD i ""
  if v1 = v2 then true
  else
    match pyFloat? v1, pyFloat? v2 with
    | some f1, some f2 =>
      let tol := tol_for tols sec i
      decide (0 < tol ∧ |f1 - f2| ≤ tol)
    | _, _ => false

/-- Padding to the common row length (`old_vals + [""] * (max_len - len)`). -/
def padTo (l : List String) (n : ℕ) : List String := l ++ List.replicate (n - l.length) ""

/-- The filter's per-row verdict: a row is dropped when no position is
"truly different" (the `break` of the source is the short-circuit of
`List.all`). -/
def row_within_tolerance (tols : AList ℚ) (sec : String)
    (old_vals new_vals : List String) : Bool :=
  let max_len := max old_vals.length new_vals.length
  (List.range max_len).all
    (field_ok tols sec (padTo old_vals max_len) (padTo new_vals max_len))

/-- The removal condition in the words of claim C2 / spec §4.5: every
positionally-differing field is either identical or numeric with absolute
difference within its (positive, hence enabled) threshold. -/
def specWithin (tols : AList ℚ) (sec : String) (ov nv : List String) : Prop :=
  ∀ i < max ov.length nv.length,
    (padTo ov (max ov.length nv.length)).getD i "" = (padTo nv (max ov.length nv.length)).getD i ""
    ∨ ∃ f1 f2,
        pyFloat? ((padTo ov (max ov.length nv.length)).getD i "") = some f1
        ∧ pyFloat? ((padTo nv (max ov.length nv.length)).getD i "") = some f2
        ∧ 0 < tol_for tols sec i ∧ |f1 - f2| ≤ tol_for tols sec i

/-- `_filter_changes_by_tolerance`, as a pure transform. -/
def filter_changes_by_tolerance (diffs : AList DiffSection) (tols : AList ℚ)
    (renames : AList (AList String)) : AList DiffSection :=
  if tols.isEmpty then diffs
  else if !(tols.any (fun kv => decide (0 < kv.2))) then diffs
  else
    diffs.map (fun sd =>
      let changed := sd.2.changed.filter (fun item =>
        if amem ((alookup renames sd.1).getD []) item.1 then true
        else !(row_within_tolerance tols sd.1 item.2.1 item.2.2))
      (sd.1, { sd.2 with changed := changed }))

/-- One renamed old id of the post-pass: force it into `changed` if absent. -/
def force_item_step (pr1 pr2 : INPParseResult) (sec : String)
    (acc2 : AList DiffSection × AList (List String)) (p : String × String) :
    AList DiffSection × AList (List String) :=
  let d := (alookup acc2.1 sec).getD emptyDiffSection
  if amem d.changed p.1 then acc2
  else
    let v1 := (alookup ((alookup pr1.sections sec).getD []) p.1).getD []
    let v2 := (alookup ((alookup pr2.sections sec).getD []) p.1).getD []
    (aset acc2.1 sec (DiffSection.mk d.added d.removed (aset d.changed p.1 (v1, v2))),
     acc2.2)

/-- One rename section of the post-pass: create the section if missing,
then force each of its renamed old ids into `changed`. -/
def force_sec_step (pr1 pr2 : INPParseResult)
    (acc : AList DiffSection × AList (List String)) (secmap : String × AList String) :
    AList DiffSection × AList (List String) :=
  let sec := secmap.1
  let dh := if amem acc.1 sec then acc
    else (aset acc.1 sec emptyDiffSection,
          aset acc.2 sec (comp_headers pr1.headers pr2.headers sec))
  secmap.2.foldl (force_item_step pr1 pr2 sec) dh

/-- The "FORCE RENAMED ITEMS INTO CHANGED" post-pass of `run_compare`
(src/core_web.py:1712-1725). -/
def force_renamed_changed (diffs : AList DiffSection) (headers : AList (List String))
    (renames : AList (AList String)) (pr1 pr2 : INPParseResult) :
    AList DiffSection × AList (List String) :=
  renames.foldl (force_sec_step pr1 pr2) (diffs, headers)

/-- The invariant threaded through the post-pass: every section is
pairwise-disjoint and no renamed old id sits in its `added`/`removed`. -/
def forcedInv (renames : AList (AList String)) (dd : AList DiffSection) : Prop :=
  ∀ sec d, alookup dd sec = some d →
    disjointDiff d ∧ ∀ id m, (sec, m) ∈ renames → id ∈ akeys m →
      id ∉ d.added ∧ id ∉ d.removed

/-- The `get_infil_method` helper of `run_compare`. -/
def get_infil_method (pr : INPParseResult) : String :=
  match alookup pr.sections "OPTIONS" with
  | some opts =>
    (match alookup opts "INFILTRATION" with
     | some (v :: _) => pyStrip (pyToUpper v)
     | some [] => "HORTON"
     | none => "HORTON")
  | none => "HORTON"

/-- The infiltration-mismatch clearing of `run_compare` step 2.5. -/
def clear_infiltration (pr : INPParseResult) : INPParseResult :=
  let secs := if amem pr.sections "INFILTRATION"
    then aset pr.sections "INFILTRATION" [] else pr.sections
  { pr with sections := secs, headers := aset pr.headers "INFILTRATION" [] }

/-- Steps 2.5–5 of `run_compare` at the document level: infiltration
mismatch clearing, spatial reconciliation, section comparison, the
force-renamed-into-changed post-pass, and tolerance filtering.  (The later
"New Name"/"Slope" column injections append display columns only and do not
touch the added/removed/changed id sets.)  Returns (diffs, headers,
RenameMap). -/
def compare_with_renames (pr1 pr2 : INPParseResult) (g1 g2 : SWMMGeometry)
    (lenM : List (ℚ × ℚ) → ℚ) (tols : AList ℚ) :
    AList DiffSection × AList (List String) × AList (AList String) :=
  let m1 := get_infil_method pr1
  let m2 := get_infil_method pr2
  let pr1c := if m1 ≠ m2 then clear_infiltration pr1 else pr1
  let pr2c := if m1 ≠ m2 then clear_infiltration pr2 else pr2
  let recr := spatial_reconcile_and_remap_using_geom pr1c pr2c g1 g2 lenM
  let pr2n := recr.1
  let renames := recr.2.2
  let ch := compare_sections pr1c.sections pr2n.sections pr1c.headers pr2n.headers
  let dh := force_renamed_changed ch.1 ch.2 renames pr1c pr2n
  let diffs := filter_changes_by_tolerance dh.1 tols renames
  (diffs, dh.2, renames)

/-! ## Report table parser (src/core_results.py) -/

/-- `expected_token_count`. -/
def expected_token_count (schema : List String) : ℕ :=
  (schema.map (fun t => if t = "time" then 2 else 1)).sum

/-- The value a column of the given type reads at token offset `i`: a
`time` column joins the two tokens at `i` and `i+1` with one space (with
the source's degradation when tokens run out), any other type takes the one
token at `i`. -/
def rowValue (tokens : List String) (i : ℕ) (typ : String) : String :=
  if typ = "time" then
    (if i + 1 < tokens.length then tokens.getD i "" ++ " " ++ tokens.getD (i + 1) ""
     else if i < tokens.length then tokens.getD i "" else "")
  else (if i < tokens.length then tokens.getD i "" else "")

/-- One column of `parse_row_by_schema`'s loop: store the column's value and
advance the token cursor by 2 for `time`, 1 otherwise. -/
def parse_row_step (tokens : List String) (acc : AList String × ℕ)
    (cs : String × String) : AList String × ℕ :=
  (aset acc.1 cs.1 (rowValue tokens acc.2 cs.2),
   acc.2 + (if cs.2 = "time" then 2 else 1))

/-- `parse_row_by_schema`. -/
def parse_row_by_schema (tokens columns schema : List String) : AList String :=
  ((columns.zip schema).foldl (parse_row_step tokens) ([], 0)).1

/-- `as_number` (src/core_results.py): numeric-ish token to number. -/
def as_number (s : String) : Option ℚ :=
  let t := pyStrip s
  if t = "" ∨ t = "-" ∨ pyToLower t = "nan" ∨ t = "NA" then none
  else
    let t1 := String.mk (t.toList.filter (fun c => c != ','))
    let t2 := if pyEndsWith t1 "%" then pyStrip (String.mk t1.toList.dropLast) else t1
    pyFloat? t2

/-- The "Node Depth Summary" schema of `SECTION_SPECS`. -/
def nodeDepthColumns : List String :=
  ["Node", "Type", "Average Depth feet", "Maximum Depth feet", "Maximum HGL feet",
   "Time of Max Occurrence", "Reported Max Depth feet"]

def nodeDepthSchema : List String := ["str", "str", "num", "num", "num", "time", "num"]

/-! ## Concrete inputs used by the claim theorems -/

/-- Claim C4's probe: two junctions per side, all within 0.5 ft of each
other on a line, with `B` closer to `X` than `A` is, and `Y` a valid
fallback for either. -/
def c4pr1 : INPParseResult := ⟨[("JUNCTIONS", [("A", ["0", "0"]), ("B", ["0", "0"])])], [], [], []⟩
def c4pr2 : INPParseResult := ⟨[("JUNCTIONS", [("X", ["0", "0"]), ("Y", ["0", "0"])])], [], [], []⟩
def c4g1 : SWMMGeometry := ⟨[("A", (0, 0)), ("B", (0.15, 0))], [], []⟩
def c4g2 : SWMMGeometry := ⟨[("X", (0.1, 0)), ("Y", (0.3, 0))], [], []⟩

/-- A polygon given as one single-point ring per point (the `≥ 3` guard of
`_build_sub_renames` counts rings). -/
def ringsOf (pts : List (ℚ × ℚ)) : List (List (ℚ × ℚ)) := pts.map (fun p => [p])

/-- Claim C5's probe: `O1`/`O2` against candidates `N1`/`N2`, identical
bounding boxes, all centroids within 10 ft; `N1` sits in the grid cell west
of the query cell so the candidate scan visits `N1` before `N2` and leaves
`N2` in the leaked loop variable. -/
def c5pr1 : INPParseResult := ⟨[("SUBCATCHMENTS", [("O1", ["v"]), ("O2", ["v"])])], [], [], []⟩
def c5pr2 : INPParseResult := ⟨[("SUBCATCHMENTS", [("N1", ["v"]), ("N2", ["v"])])], [], [], []⟩
def c5g1 : SWMMGeometry :=
  ⟨[], [], [("O1", ringsOf [(1000, 4), (1001, 5), (1002, 6)]),
            ("O2", ringsOf [(1000, 5), (1001, 6), (1002, 7)])]⟩
def c5g2 : SWMMGeometry :=
  ⟨[], [], [("N1", ringsOf [(998.5, 4), (999.5, 5), (1000.5, 6)]),
            ("N2", ringsOf [(1002, 4), (1003, 5), (1004, 6)])]⟩

/-- Claim C6's probe: file 1 has junction `J1` at (0,0); file 2 has outfall
`J2` at the same spot — a cross-section node rename. -/
def c6pr1 : INPParseResult :=
  ⟨[("JUNCTIONS", [("J1", ["100", "10"])]), ("COORDINATES", [("J1", ["0", "0"])])], [], [], []⟩
def c6pr2 : INPParseResult :=
  ⟨[("OUTFALLS", [("J2", ["100", "FREE"])]), ("COORDINATES", [("J2", ["0", "0"])])], [], [], []⟩
def c6g1 : SWMMGeometry := ⟨[("J1", (0, 0))], [], []⟩
def c6g2 : SWMMGeometry := ⟨[("J2", (0, 0))], [], []⟩

/-- Claim C2's probe: a CONDUITS row differing only in `Length`
(100.0 vs 100.05). -/
def c2old : List String := ["N1", "N2", "100.0", "0.01", "0", "0"]
def c2new : List String := ["N1", "N2", "100.05", "0.01", "0", "0"]
def c2diffs : AList DiffSection := [("CONDUITS", ⟨[], [], [("C1", (c2old, c2new))]⟩)]

/-! ## Theorems for the claims -/

/-- C5 — the subcatchment pass is NOT claim-and-remove as written: after
assigning `best`, the source executes `used_new.add(new_id)` where `new_id`
is the candidate-loop variable (the LAST candidate scanned), not `best`.
On this input both `O1` and `O2` are assigned `N1`: the rename map is not
injective, contradicting the claim (and the evident intent — the node and
link passes claim the assigned id). -/
theorem C5_sub_renames_not_injective :
    build_sub_renames c5pr1 c5pr2 c5g1 c5g2 (10 * FEET_TO_M) 0.10
      = [("O1", "N1"), ("O2", "N1")] := by decide

/-- C6 counterexample — after the force-renamed-into-changed post-pass the
added/removed/changed id sets of a section need not be disjoint: a
cross-section rename (junction `J1` → outfall `J2`) leaves `J1` in
`removed` for JUNCTIONS (the rename rekeys only file 2's OUTFALLS row) while
the post-pass also forces `J1` into JUNCTIONS' `changed`. -/
theorem C6_disjointness_counterexample :
    "J1" ∈ ((alookup (compare_with_renames c6pr1 c6pr2 c6g1 c6g2 (fun _ => 0) []).1
        "JUNCTIONS").getD emptyDiffSection).removed
    ∧ "J1" ∈ akeys ((alookup (compare_with_renames c6pr1 c6pr2 c6g1 c6g2 (fun _ => 0) []).1
        "JUNCTIONS").getD emptyDiffSection).changed := by decide

/-- C7 counterexample — a link polyline IS materialized although neither
endpoint resolves to a coordinate: the two `[VERTICES]` points alone reach
the ≥ 2 threshold, so `L1` gets a polyline while `X1`, `X2` are absent from
the node table. -/
theorem C7_link_counterexample :
    parse_geom_iter ["[CONDUITS]", "L1 X1 X2 10", "[VERTICES]", "L1 1 1", "L1 2 2"]
      = .ok ⟨[], [("L1", [(1, 1), (2, 2)])], []⟩ := by decide

/-- C8 — the geometry extractor does NOT run to completion on malformed
input: a non-numeric coordinate token reaches the unguarded `float(...)`
call, and Python raises `ValueError` (modelled as `.error`). -/
theorem C8_geom_extractor_raises :
    parse_geom_iter ["[COORDINATES]", "A B C"] = .error "ValueError" := by decide

/-- Members of a list never survive a filter on non-membership. -/
theorem filter_not_contains_self (l : List String) :
    l.filter (fun x => !(l.contains x)) = [] := by
  rw [List.filter_eq_nil_iff]
  intro a ha
  simp [List.elem_iff, ha]

/-- A fold whose step fixes the accumulator for every listed element. -/
theorem foldl_fixed {β γ : Type} (f : γ → β → γ) (l : List β) (acc : γ)
    (h : ∀ acc b, b ∈ l → f acc b = acc) : l.foldl f acc = acc := by
  induction l generalizing acc with
  | nil => rfl
  | cons b rest ih =>
    rw [List.foldl_cons, h acc b (by simp)]
    exact ih acc (fun a c hc => h a c (by simp [hc]))

/-- Lookup hits are members. -/
theorem alookup_mem {α : Type} {m : AList α} {k : String} {v : α}
    (h : alookup m k = some v) : (k, v) ∈ m := by
  induction m with
  | nil => simp [alookup] at h
  | cons p rest ih =>
    obtain ⟨k0, v0⟩ := p
    rw [alookup] at h
    by_cases hk : k0 = k
    · rw [if_pos hk] at h
      cases h
      rw [hk]
      exact List.mem_cons_self _ _
    · rw [if_neg hk] at h
      exact List.mem_cons_of_mem _ (ih h)

/-- Members are lookup hits on a duplicate-free dict. -/
theorem mem_alookup {α : Type} {m : AList α} {k : String} {v : α}
    (hnd : (akeys m).Nodup) (h : (k, v) ∈ m) : alookup m k = some v := by
  induction m with
  | nil => simp at h
  | cons p rest ih =>
    rw [akeys, List.map_cons, List.nodup_cons] at hnd
    rcases List.mem_cons.mp h with h1 | h1
    · cases h1
      simp [alookup]
    · rw [alookup]
      have hk : p.1 ≠ k := by
        intro hh
        exact hnd.1 (hh ▸ (List.mem_map.mpr ⟨(k, v), h1, rfl⟩))
      rw [if_neg hk]
      exact ih hnd.2 h1

theorem build_node_renames_self (pr : INPParseResult) (g1 g2 : SWMMGeometry) (e : ℚ) :
    build_node_renames pr pr g1 g2 e = [] := by
  unfold build_node_renames
  simp only [filter_not_contains_self]
  simp [sortLe]

theorem build_link_renames_self (pr : INPParseResult) (g1 g2 : SWMMGeometry)
    (nr : AList String) (lenM : List (ℚ × ℚ) → ℚ) (e t : ℚ) :
    build_link_renames pr pr g1 g2 nr lenM e t = [] := by
  unfold build_link_renames
  simp only [filter_not_contains_self]
  simp

theorem build_sub_renames_self (pr : INPParseResult) (g1 g2 : SWMMGeometry) (e t : ℚ) :
    build_sub_renames pr pr g1 g2 e t = [] := by
  unfold build_sub_renames
  simp only [filter_not_contains_self]
  simp

/-- C1 — comparing a document with itself yields an empty diff (no section
reports any added/removed/changed id), and reconciling a document/geometry
with itself yields an empty RenameMap.  The hypothesis is the Python dict
invariant: ids are unique within a section. -/
theorem C1_compare_and_reconcile_self_empty (pr : INPParseResult) (g : SWMMGeometry)
    (lenM : List (ℚ × ℚ) → ℚ)
    (hwf : ∀ p ∈ pr.sections, (akeys p.2).Nodup) :
    (compare_sections pr.sections pr.sections pr.headers pr.headers).1 = []
    ∧ (spatial_reconcile_and_remap_using_geom pr pr g g lenM).2.2 = [] := by
  constructor
  · unfold compare_sections
    have hfix : ∀ (acc : AList DiffSection × AList (List String)) (sec : String),
        sec ∈ sortStr ((akeys pr.sections ++ akeys pr.sections).eraseDups) →
        (fun acc sec =>
          let recs1 := (alookup pr.sections sec).getD []
          let recs2 := (alookup pr.sections sec).getD []
          let keys1 := akeys recs1
          let keys2 := akeys recs2
          let added := sortStr (keys2.filter (fun k => !(keys1.contains k)))
          let removed := sortStr (keys1.filter (fun k => !(keys2.contains k)))
          let changed := recs1.filterMap (fun kv =>
            match alookup recs2 kv.1 with
            | some v2 => if kv.2 ≠ v2 then some (kv.1, (kv.2, v2)) else none
            | none => none)
          if added ≠ [] ∨ removed ≠ [] ∨ changed ≠ [] then
            (acc.1 ++ [(sec, ⟨added, removed, changed⟩)],
             acc.2 ++ [(sec, match alookup pr.headers sec with
               | some h => if h = [] then (alookup pr.headers sec).getD [] else h
               | none => (alookup pr.headers sec).getD [])])
          else acc) acc sec = acc := by
      intro acc sec _
      have hch : ((alookup pr.sections sec).getD []).filterMap (fun kv =>
          match alookup ((alookup pr.sections sec).getD []) kv.1 with
          | some v2 => if kv.2 ≠ v2 then some (kv.1, (kv.2, v2)) else none
          | none => none) = [] := by
        rw [List.filterMap_eq_nil_iff]
        intro kv hkv
        obtain ⟨k, v⟩ := kv
        have hnd : (akeys ((alookup pr.sections sec).getD [])).Nodup := by
          cases hrec : alookup pr.sections sec with
          | none => simp [akeys]
          | some recs => exact hwf (sec, recs) (alookup_mem hrec)
        rw [mem_alookup hnd hkv]
        simp
      simp only [filter_not_contains_self, hch]
      simp [sortStr, sortLe]
    exact congrArg Prod.fst (foldl_fixed _ _ _ hfix)
  · unfold spatial_reconcile_and_remap_using_geom
    simp [build_node_renames_self, build_link_renames_self, build_sub_renames_self, bySecAdd]

/-- C3 counterexample — the slope is NOT omitted when the offsets are
missing: on a 3-field conduit row (both offsets absent) the source defaults
them to `0.0` and still produces a `Slope` entry in the derived deltas. -/
theorem C3_slope_counterexample :
    alookup (calculate_field_diffs ["N1", "N2", "100"] ["N1", "N2", "200"]
      ["Name"] "CONDUITS" (some []) (some [])) "Slope" = some 0 := by decide

/-- Witness for C1 at a concrete one-junction document. -/
theorem C1_compare_and_reconcile_self_empty_witness :
    (∀ p ∈ c6pr1.sections, (akeys p.2).Nodup)
    ∧ (compare_sections c6pr1.sections c6pr1.sections c6pr1.headers c6pr1.headers).1 = []
    ∧ (spatial_reconcile_and_remap_using_geom c6pr1 c6pr1 c6g1 c6g1 (fun _ => 0)).2.2 = [] :=
  ⟨by decide,
   (C1_compare_and_reconcile_self_empty c6pr1 c6g1 (fun _ => 0) (by decide)).1,
   (C1_compare_and_reconcile_self_empty c6pr1 c6g1 (fun _ => 0) (by decide)).2⟩

/-- Flooring to grid cells moves by at most one cell per cell-size of
distance from the query coordinate. -/
theorem floor_cell_bound {x q c : ℚ} (hc : 0 < c) (h : |x - q| ≤ c) :
    ⌊q / c⌋ - 1 ≤ ⌊x / c⌋ ∧ ⌊x / c⌋ ≤ ⌊q / c⌋ + 1 := by
  rw [abs_le] at h
  constructor
  · have hdiv : q / c - 1 ≤ x / c := by
      have h1 : (q - c) / c ≤ x / c := (div_le_div_iff_of_pos_right hc).mpr (by linarith)
      calc q / c - 1 = (q - c) / c := by field_simp
        _ ≤ x / c := h1
    calc ⌊q / c⌋ - 1 = ⌊q / c - 1⌋ := (Int.floor_sub_one _).symm
      _ ≤ ⌊x / c⌋ := Int.floor_mono hdiv
  · have hdiv : x / c ≤ q / c + 1 := by
      have h1 : x / c ≤ (q + c) / c := (div_le_div_iff_of_pos_right hc).mpr (by linarith)
      calc x / c ≤ (q + c) / c := h1
        _ = q / c + 1 := by field_simp
    calc ⌊x / c⌋ ≤ ⌊q / c + 1⌋ := Int.floor_mono hdiv
      _ = ⌊q / c⌋ + 1 := Int.floor_add_one _

/-- C10 — 3×3-neighbourhood completeness of the spatial index: with a
positive cell size, every inserted entry within one cell size of the query
point (on both axes) is returned by `query_candidates`. -/
theorem C10_spatial_index_complete (cs : ℚ) (entries : List (String × ℚ × ℚ))
    (ent : String × ℚ × ℚ) (qx qy : ℚ)
    (hc : 0 < cs) (hm : ent ∈ entries)
    (hx : |ent.2.1 - qx| ≤ cs) (hy : |ent.2.2 - qy| ≤ cs) :
    ent ∈ (SpatialIndex.mk cs entries).query_candidates qx qy := by
  have hbx := floor_cell_bound hc hx
  have hby := floor_cell_bound hc hy
  unfold SpatialIndex.query_candidates
  simp only
  refine List.mem_flatten.mpr ⟨_, List.mem_map.mpr
    ⟨⌊ent.2.1 / cs⌋ - ⌊qx / cs⌋, ?_, rfl⟩, ?_⟩
  · have h1 : ⌊ent.2.1 / cs⌋ - ⌊qx / cs⌋ = -1 ∨ ⌊ent.2.1 / cs⌋ - ⌊qx / cs⌋ = 0
        ∨ ⌊ent.2.1 / cs⌋ - ⌊qx / cs⌋ = 1 := by omega
    simpa using h1
  refine List.mem_flatten.mpr ⟨_, List.mem_map.mpr
    ⟨⌊ent.2.2 / cs⌋ - ⌊qy / cs⌋, ?_, rfl⟩, ?_⟩
  · have h1 : ⌊ent.2.2 / cs⌋ - ⌊qy / cs⌋ = -1 ∨ ⌊ent.2.2 / cs⌋ - ⌊qy / cs⌋ = 0
        ∨ ⌊ent.2.2 / cs⌋ - ⌊qy / cs⌋ = 1 := by omega
    simpa using h1
  unfold SpatialIndex.cellEntries
  refine List.mem_filter.mpr ⟨hm, ?_⟩
  have hcell : get_cell cs ent.2.1 ent.2.2 =
      ((get_cell cs qx qy).1 + (⌊ent.2.1 / cs⌋ - ⌊qx / cs⌋),
       (get_cell cs qx qy).2 + (⌊ent.2.2 / cs⌋ - ⌊qy / cs⌋)) := by
    unfold get_cell
    simp only [Prod.mk.injEq]
    constructor <;> omega
  simp [hcell]

/-- Witness for C10 at a concrete index and query. -/
theorem C10_spatial_index_complete_witness :
    (0 : ℚ) < 200 ∧ ("n", (150 : ℚ), (0 : ℚ)) ∈ [(("n", (150 : ℚ), (0 : ℚ)))]
    ∧ |(150 : ℚ) - 50| ≤ 200 ∧ |(0 : ℚ) - 0| ≤ 200
    ∧ ("n", (150 : ℚ), (0 : ℚ)) ∈
        (SpatialIndex.mk 200 [("n", 150, 0)]).query_candidates 50 0 :=
  ⟨by decide, by decide, by decide, by decide,
   C10_spatial_index_complete 200 [("n", 150, 0)] ("n", 150, 0) 50 0
     (by decide) (by decide) (by decide) (by decide)⟩

/-- C3 (amended) — characterization of `_calculate_slope`: `none` when
`Length` is missing or non-numeric; `0` when `Length ≤ 0` (before the
offsets are read); otherwise `(in - out) / length` where a PRESENT offset
must parse and a MISSING offset defaults to 0; and the spec's two examples. -/
theorem C3_slope_characterization :
    (∀ vals secs, vals[2]? = none → calculate_slope vals secs = none)
    ∧ (∀ vals secs s, vals[2]? = some s → pyFloat? s = none →
        calculate_slope vals secs = none)
    ∧ (∀ vals secs s l, vals[2]? = some s → pyFloat? s = some l → l ≤ 0 →
        calculate_slope vals secs = some 0)
    ∧ (∀ vals secs s l, vals[2]? = some s → pyFloat? s = some l → 0 < l →
        calculate_slope vals secs =
          match offset_or_default vals 4, offset_or_default vals 5 with
          | some i, some o => some ((i - o) / l)
          | _, _ => none)
    ∧ calculate_slope ["J1", "J2", "100", "0.01", "2", "0"] [] = some (1 / 50)
    ∧ calculate_slope ["J1", "J2", "0"] [] = some 0 := by
  refine ⟨?_, ?_, ?_, ?_, by decide, by decide⟩
  · intro vals secs h
    unfold calculate_slope
    rw [h]
  · intro vals secs s h1 h2
    unfold calculate_slope
    rw [h1]
    simp only [h2]
  · intro vals secs s l h1 h2 h3
    unfold calculate_slope
    rw [h1]
    simp only [h2]
    rw [if_pos h3]
  · intro vals secs s l h1 h2 h3
    unfold calculate_slope
    rw [h1]
    simp only [h2]
    rw [if_neg (not_le.mpr h3)]
    rfl

/-- Witness for C3 at concrete rows exercising every hypothesis. -/
theorem C3_slope_characterization_witness :
    calculate_slope ["N1"] [] = none
    ∧ calculate_slope ["N1", "N2", "abc"] [] = none
    ∧ calculate_slope ["N1", "N2", "-5", "x", "zz"] [] = some 0
    ∧ calculate_slope ["N1", "N2", "100", "R", "2", "1"] [] =
        (match offset_or_default ["N1", "N2", "100", "R", "2", "1"] 4,
               offset_or_default ["N1", "N2", "100", "R", "2", "1"] 5 with
         | some i, some o => some ((i - o) / (100 : ℚ))
         | _, _ => none) :=
  ⟨C3_slope_characterization.1 ["N1"] [] (by decide),
   C3_slope_characterization.2.1 ["N1", "N2", "abc"] [] "abc" (by decide) (by decide),
   C3_slope_characterization.2.2.1 ["N1", "N2", "-5", "x", "zz"] [] "-5" (-5)
     (by decide) (by decide) (by decide),
   C3_slope_characterization.2.2.2.1 ["N1", "N2", "100", "R", "2", "1"] [] "100" 100
     (by decide) (by decide) (by decide)⟩

/-- A field position passes the filter iff it is identical or numeric on
both sides with a positive applicable threshold covering the difference. -/
theorem field_ok_iff (tols : AList ℚ) (sec : String) (op np : List String) (i : ℕ) :
    field_ok tols sec op np i = true ↔
      (op.getD i "" = np.getD i "" ∨
        ∃ f1 f2, pyFloat? (op.getD i "") = some f1 ∧ pyFloat? (np.getD i "") = some f2
          ∧ 0 < tol_for tols sec i ∧ |f1 - f2| ≤ tol_for tols sec i) := by
  unfold field_ok
  by_cases hv : op.getD i "" = np.getD i ""
  · rw [if_pos hv]
    exact ⟨fun _ => Or.inl hv, fun _ => rfl⟩
  · rw [if_neg hv]
    cases h1 : pyFloat? (op.getD i "") with
    | none =>
      constructor
      · intro hh
        exact absurd hh (by cases pyFloat? (np.getD i "") <;> simp)
      · rintro (hc | ⟨f1, f2, hf1, hf2, _, _⟩)
        · exact absurd hc hv
        · cases hf1
    | some f1 =>
      cases h2 : pyFloat? (np.getD i "") with
      | none =>
        constructor
        · intro hh
          exact absurd hh (by simp)
        · rintro (hc | ⟨f1x, f2x, hf1, hf2, _, _⟩)
          · exact absurd hc hv
          · cases hf2
      | some f2 =>
        constructor
        · intro hh
          have hp : 0 < tol_for tols sec i ∧ |f1 - f2| ≤ tol_for tols sec i :=
            of_decide_eq_true hh
          exact Or.inr ⟨f1, f2, rfl, rfl, hp.1, hp.2⟩
        · rintro (hc | ⟨f1x, f2x, hf1, hf2, ht, hd⟩)
          · exact absurd hc hv
          · injection hf1 with e1
            injection hf2 with e2
            subst e1
            subst e2
            exact decide_eq_true ⟨ht, hd⟩

/-- The row verdict of the filter coincides with the claim's wording. -/
theorem row_within_iff (tols : AList ℚ) (sec : String) (ov nv : List String) :
    row_within_tolerance tols sec ov nv = true ↔ specWithin tols sec ov nv := by
  unfold row_within_tolerance specWithin
  rw [List.all_eq_true]
  constructor
  · intro h i hi
    have hh := h i (List.mem_range.mpr hi)
    rw [field_ok_iff] at hh
    exact hh
  · intro h i hi
    rw [field_ok_iff]
    exact h i (List.mem_range.mp hi)

/-- Lookups through a key-preserving map. -/
theorem alookup_map_pair {α β : Type} (f : String → α → β) (m : AList α) (k : String) :
    alookup (m.map (fun p => (p.1, f p.1 p.2))) k = (alookup m k).map (f k) := by
  induction m with
  | nil => rfl
  | cons p rest ih =>
    obtain ⟨k0, v⟩ := p
    by_cases h : k0 = k
    · subst h
      simp [alookup]
    · simp [alookup, h, ih]

/-- C2 — tolerance filtering: (1) if no supplied threshold is positive the
filter changes nothing; (2) rows recorded in the rename map are never
removed; (3) with some positive threshold, a non-renamed changed row
survives iff some positionally-differing field is neither identical nor
numeric-within-its-threshold (i.e. it is REMOVED iff every such field is);
(4) the spec's CONDUITS example: Length 100.0→100.05 is removed under
`CONDUIT_LENGTH=0.1` and retained under `0.01` with
`diff_values["Length"] = 0.05`. -/
theorem C2_tolerance_filter :
    (∀ diffs tols renames, (∀ kv ∈ tols, kv.2 ≤ (0 : ℚ)) →
        filter_changes_by_tolerance diffs tols renames = diffs)
    ∧ (∀ diffs tols renames sec d id p, (sec, d) ∈ diffs → (id, p) ∈ d.changed →
        amem ((alookup renames sec).getD []) id = true →
        ∃ d', (sec, d') ∈ filter_changes_by_tolerance diffs tols renames
          ∧ (id, p) ∈ d'.changed)
    ∧ (∀ diffs tols renames sec d id ov nv,
        tols.any (fun kv => decide (0 < kv.2)) = true →
        alookup diffs sec = some d →
        amem ((alookup renames sec).getD []) id = false →
        ∃ d', alookup (filter_changes_by_tolerance diffs tols renames) sec = some d'
          ∧ ((id, (ov, nv)) ∈ d'.changed ↔
              (id, (ov, nv)) ∈ d.changed ∧ ¬ specWithin tols sec ov nv))
    ∧ filter_changes_by_tolerance c2diffs [("CONDUIT_LENGTH", 0.1)] []
        = [("CONDUITS", ⟨[], [], []⟩)]
    ∧ filter_changes_by_tolerance c2diffs [("CONDUIT_LENGTH", 0.01)] [] = c2diffs
    ∧ alookup (calculate_field_diffs c2old c2new
        ["Name", "FromNode", "ToNode", "Length", "Roughness"] "CONDUITS"
        (some []) (some [])) "Length" = some 0.05 := by
  refine ⟨?_, ?_, ?_, by decide, by decide, by decide⟩
  · intro diffs tols renames h
    unfold filter_changes_by_tolerance
    by_cases he : tols.isEmpty
    · rw [if_pos he]
    · rw [if_neg he]
      have hany : tols.any (fun kv => decide (0 < kv.2)) = false := by
        rw [List.any_eq_false]
        intro kv hkv
        simpa using not_lt.mpr (h kv hkv)
      rw [hany]
      simp
  · intro diffs tols renames sec d id p hmem hch hren
    unfold filter_changes_by_tolerance
    by_cases he : tols.isEmpty
    · rw [if_pos he]
      exact ⟨d, hmem, hch⟩
    · rw [if_neg he]
      by_cases hany : tols.any (fun kv => decide (0 < kv.2)) = true
      · rw [hany]
        simp only [Bool.not_true, Bool.false_eq_true, if_false]
        refine ⟨_, List.mem_map.mpr ⟨(sec, d), hmem, rfl⟩, ?_⟩
        apply List.mem_filter.mpr ⟨hch, ?_⟩
        simp [hren]
      · rw [Bool.not_eq_true] at hany
        rw [hany]
        simp only [Bool.not_false, if_true]
        exact ⟨d, hmem, hch⟩
  · intro diffs tols renames sec d id ov nv hany hsec hren
    unfold filter_changes_by_tolerance
    have hne : tols.isEmpty = false := by
      cases tols with
      | nil => simp at hany
      | cons a b => rfl
    rw [hne, hany]
    simp only [Bool.not_true, Bool.false_eq_true, if_false]
    refine ⟨DiffSection.mk d.added d.removed (d.changed.filter (fun item => if amem ((alookup renames sec).getD []) item.1 then true else !(row_within_tolerance tols sec item.2.1 item.2.2))), ?_, ?_⟩
    · have hmap := alookup_map_pair (fun s dd => DiffSection.mk dd.added dd.removed (dd.changed.filter (fun item => if amem ((alookup renames s).getD []) item.1 then true else !(row_within_tolerance tols s item.2.1 item.2.2)))) diffs sec
      rw [hsec] at hmap
      exact hmap
    · constructor
      · intro hmemf
        obtain ⟨h1, h2⟩ := List.mem_filter.mp hmemf
        refine ⟨h1, ?_⟩
        simp only [hren, Bool.false_eq_true, if_false, Bool.not_eq_true'] at h2
        rw [← row_within_iff]
        simp [h2]
      · rintro ⟨h1, h2⟩
        apply List.mem_filter.mpr
        refine ⟨h1, ?_⟩
        rw [← row_within_iff] at h2
        simp [hren, h2]

/-- Witness for C2 at the spec's own example. -/
theorem C2_tolerance_filter_witness :
    filter_changes_by_tolerance c2diffs [("CONDUIT_LENGTH", (0 : ℚ))] [] = c2diffs
    ∧ (∃ d', (("CONDUITS", d') ∈ filter_changes_by_tolerance c2diffs
          [("CONDUIT_LENGTH", (0.1 : ℚ))] [("CONDUITS", [("C1", "C9")])])
        ∧ ("C1", (c2old, c2new)) ∈ d'.changed)
    ∧ (∃ d', alookup (filter_changes_by_tolerance c2diffs
          [("CONDUIT_LENGTH", (0.1 : ℚ))] []) "CONDUITS" = some d'
        ∧ (("C1", (c2old, c2new)) ∈ d'.changed ↔
            ("C1", (c2old, c2new)) ∈ ((⟨[], [], [("C1", (c2old, c2new))]⟩ : DiffSection)).changed
              ∧ ¬ specWithin [("CONDUIT_LENGTH", (0.1 : ℚ))] "CONDUITS" c2old c2new)) :=
  ⟨C2_tolerance_filter.1 c2diffs [("CONDUIT_LENGTH", 0)] [] (by decide),
   C2_tolerance_filter.2.1 c2diffs [("CONDUIT_LENGTH", 0.1)] [("CONDUITS", [("C1", "C9")])]
     "CONDUITS" ⟨[], [], [("C1", (c2old, c2new))]⟩ "C1" (c2old, c2new)
     (by decide) (by decide) (by decide),
   C2_tolerance_filter.2.2.1 c2diffs [("CONDUIT_LENGTH", 0.1)] [] "CONDUITS"
     ⟨[], [], [("C1", (c2old, c2new))]⟩ "C1" c2old c2new
     (by decide) (by decide) (by decide)⟩

/-- Lookup after a dict assignment. -/
theorem alookup_aset {α : Type} (m : AList α) (k k' : String) (v : α) :
    alookup (aset m k v) k' = if k = k' then some v else alookup m k' := by
  induction m with
  | nil =>
    by_cases h : k = k' <;> simp [aset, alookup, h]
  | cons p rest ih =>
    obtain ⟨k0, v0⟩ := p
    by_cases h0 : k0 = k
    · subst h0
      rw [aset, if_pos rfl]
      by_cases h1 : k0 = k'
      · subst h1
        simp [alookup]
      · simp [alookup, h1]
    · rw [aset, if_neg h0]
      by_cases h1 : k0 = k'
      · subst h1
        have hne : ¬ k = k0 := fun hh => h0 hh.symm
        simp [alookup, hne]
      · simp [alookup, h1, ih]

/-- Absent keys look up to `none`. -/
theorem alookup_eq_none_iff {α : Type} (m : AList α) (k : String) :
    alookup m k = none ↔ k ∉ akeys m := by
  induction m with
  | nil => simp [alookup, akeys]
  | cons p rest ih =>
    obtain ⟨k0, v0⟩ := p
    have hak : akeys ((k0, v0) :: rest) = k0 :: akeys rest := rfl
    rw [alookup, hak]
    by_cases h : k0 = k
    · subst h
      simp
    · rw [if_neg h, ih]
      simp only [List.mem_cons, not_or]
      constructor
      · intro hnot
        exact ⟨fun hh => h hh.symm, hnot⟩
      · intro hh
        exact hh.2

/-- Every polyline stored by the assembly has at least two points. -/
theorem assemble_links_length {nodes : AList (ℚ × ℚ)} {verts : AList (List (ℚ × ℚ))}
    {eps : AList (String × String)} {lid : String} {pts : List (ℚ × ℚ)}
    (h : alookup (assemble_links nodes verts eps) lid = some pts) : 2 ≤ pts.length := by
  have hmem := alookup_mem h
  unfold assemble_links at hmem
  obtain ⟨p, _, hgp⟩ := List.mem_filterMap.mp hmem
  by_cases hc : 2 ≤ (link_coords nodes verts p.1 p.2.1 p.2.2).length
  · rw [if_pos hc] at hgp
    injection hgp with hgp2
    injection hgp2 with _ hpts
    rw [← hpts]
    exact hc
  · rw [if_neg hc] at hgp
    cases hgp

/-- The assembled link table only carries ids from the endpoint table. -/
theorem assemble_keys_sub (nodes : AList (ℚ × ℚ)) (verts : AList (List (ℚ × ℚ)))
    (eps : AList (String × String)) :
    ∀ x ∈ akeys (assemble_links nodes verts eps), x ∈ akeys eps := by
  intro x hx
  obtain ⟨b, hb, hfst⟩ := List.mem_map.mp hx
  obtain ⟨p, hp, hgp⟩ := List.mem_filterMap.mp hb
  by_cases hc : 2 ≤ (link_coords nodes verts p.1 p.2.1 p.2.2).length
  · rw [if_pos hc] at hgp
    injection hgp with hb2
    rw [← hb2] at hfst
    rw [← hfst]
    exact List.mem_map.mpr ⟨p, hp, rfl⟩
  · rw [if_neg hc] at hgp
    cases hgp

/-- Characterization of the assembled link table on duplicate-free endpoint
tables (Python dicts): the polyline for `lid` is exactly `link_coords`,
kept iff that list has ≥ 2 points. -/
theorem assemble_links_lookup (nodes : AList (ℚ × ℚ)) (verts : AList (List (ℚ × ℚ)))
    (eps : AList (String × String)) (lid : String)
    (hnd : (akeys eps).Nodup) :
    alookup (assemble_links nodes verts eps) lid
      = (alookup eps lid).bind (fun e =>
          if 2 ≤ (link_coords nodes verts lid e.1 e.2).length
          then some (link_coords nodes verts lid e.1 e.2) else none) := by
  induction eps with
  | nil => rfl
  | cons p rest ih =>
    obtain ⟨k0, e0⟩ := p
    have hak : akeys ((k0, e0) :: rest) = k0 :: akeys rest := rfl
    rw [hak] at hnd
    have hnd2 := List.nodup_cons.mp hnd
    have ihr := ih hnd2.2
    by_cases hk : k0 = lid
    · subst hk
      have hrhs : alookup ((k0, e0) :: rest) k0 = some e0 := by
        rw [alookup, if_pos rfl]
      rw [hrhs, Option.some_bind]
      by_cases hc : 2 ≤ (link_coords nodes verts k0 e0.1 e0.2).length
      · have hstep : assemble_links nodes verts ((k0, e0) :: rest)
            = (k0, link_coords nodes verts k0 e0.1 e0.2)
              :: assemble_links nodes verts rest := by
          unfold assemble_links
          exact List.filterMap_cons_some (by rw [if_pos hc])
        rw [hstep, if_pos hc, alookup, if_pos rfl]
      · have hstep : assemble_links nodes verts ((k0, e0) :: rest)
            = assemble_links nodes verts rest := by
          unfold assemble_links
          exact List.filterMap_cons_none (by rw [if_neg hc])
        rw [hstep, if_neg hc]
        rw [alookup_eq_none_iff]
        intro hmemk
        exact hnd2.1 (assemble_keys_sub nodes verts rest k0 hmemk)
    · have hrhs : alookup ((k0, e0) :: rest) lid = alookup rest lid := by
        rw [alookup, if_neg hk]
      rw [hrhs]
      by_cases hc : 2 ≤ (link_coords nodes verts k0 e0.1 e0.2).length
      · have hstep : assemble_links nodes verts ((k0, e0) :: rest)
            = (k0, link_coords nodes verts k0 e0.1 e0.2)
              :: assemble_links nodes verts rest := by
          unfold assemble_links
          exact List.filterMap_cons_some (by rw [if_pos hc])
        rw [hstep, alookup, if_neg hk]
        exact ihr
      · have hstep : assemble_links nodes verts ((k0, e0) :: rest)
            = assemble_links nodes verts rest := by
          unfold assemble_links
          exact List.filterMap_cons_none (by rw [if_neg hc])
        rw [hstep]
        exact ihr

/-- The positive case of the claim: both endpoints resolving gives
`[startCoord, ...vertices..., endCoord]`. -/
theorem assemble_links_both_resolve (nodes : AList (ℚ × ℚ))
    (verts : AList (List (ℚ × ℚ))) (eps : AList (String × String))
    (lid n1 n2 : String) (c1 c2 : ℚ × ℚ)
    (hnd : (akeys eps).Nodup) (he : alookup eps lid = some (n1, n2))
    (h1 : alookup nodes n1 = some c1) (h2 : alookup nodes n2 = some c2) :
    alookup (assemble_links nodes verts eps) lid
      = some (c1 :: ((alookup verts lid).getD [] ++ [c2])) := by
  rw [assemble_links_lookup nodes verts eps lid hnd, he, Option.some_bind]
  have hlc : link_coords nodes verts lid n1 n2
      = c1 :: ((alookup verts lid).getD [] ++ [c2]) := by
    unfold link_coords
    rw [h1, h2]
    simp [optPt]
  rw [hlc]
  rw [if_pos (by simp)]

/-- C7 (amended) — link polylines: every materialized polyline has ≥ 2
points; for a duplicate-free endpoint table, `lid` is materialized iff the
list (optional start coordinate) + vertices in file order + (optional end
coordinate) reaches 2 points — an UNRESOLVED endpoint is simply omitted
rather than vetoing materialization; when both endpoints resolve this is
the claim's `[startCoord, ...vertices..., endCoord]`. -/
theorem C7_link_polyline_amended :
    (∀ lines g lid pts, parse_geom_iter lines = .ok g →
        alookup g.links lid = some pts → 2 ≤ pts.length)
    ∧ (∀ nodes verts eps lid n1 n2 pts, (akeys eps).Nodup →
        alookup eps lid = some (n1, n2) →
        (alookup (assemble_links nodes verts eps) lid = some pts ↔
          (pts = link_coords nodes verts lid n1 n2 ∧ 2 ≤ pts.length)))
    ∧ (∀ nodes verts eps lid n1 n2 c1 c2, (akeys eps).Nodup →
        alookup eps lid = some (n1, n2) →
        alookup nodes n1 = some c1 → alookup nodes n2 = some c2 →
        alookup (assemble_links nodes verts eps) lid
          = some (c1 :: ((alookup verts lid).getD [] ++ [c2]))) := by
  refine ⟨?_, ?_, assemble_links_both_resolve⟩
  · intro lines g lid pts hp hl
    unfold parse_geom_iter at hp
    cases hfold : lines.foldlM geomStep initGeomState with
    | error e =>
      rw [hfold] at hp
      cases hp
    | ok st =>
      rw [hfold] at hp
      cases hp
      exact assemble_links_length hl
  · intro nodes verts eps lid n1 n2 pts hnd he
    rw [assemble_links_lookup nodes verts eps lid hnd, he, Option.some_bind]
    by_cases hc : 2 ≤ (link_coords nodes verts lid n1 n2).length
    · rw [if_pos hc]
      constructor
      · intro hh
        injection hh with hh1
        exact ⟨hh1.symm, hh1 ▸ hc⟩
      · rintro ⟨hh1, _⟩
        rw [hh1]
    · rw [if_neg hc]
      constructor
      · intro hh
        cases hh
      · rintro ⟨hh1, hh2⟩
        exact absurd (hh1 ▸ hh2) hc

/-- Witness for C7's amended theorem at a concrete geometry. -/
theorem C7_link_polyline_amended_witness :
    alookup (assemble_links [("J1", ((0 : ℚ), (0 : ℚ))), ("J2", (3, 4))]
        [("L1", [((1 : ℚ), (1 : ℚ))])] [("L1", ("J1", "J2"))]) "L1"
      = some [((0 : ℚ), (0 : ℚ)), (1, 1), (3, 4)] := by
  have h := C7_link_polyline_amended.2.2 [("J1", (0, 0)), ("J2", (3, 4))]
    [("L1", [(1, 1)])] [("L1", ("J1", "J2"))] "L1" "J1" "J2" (0, 0) (3, 4)
    (by decide) (by decide) (by decide) (by decide)
  simpa using h

/-- Columns other than `k` never disturb `k`'s stored value. -/
theorem parse_row_frame (tokens : List String) :
    ∀ (pairs : List (String × String)) (st : AList String × ℕ) (k : String),
      (∀ p ∈ pairs, p.1 ≠ k) →
      alookup ((pairs.foldl (parse_row_step tokens) st).1) k = alookup st.1 k := by
  intro pairs
  induction pairs with
  | nil =>
    intro st k _
    rfl
  | cons p rest ih =>
    intro st k h
    rw [List.foldl_cons]
    rw [ih _ k (fun q hq => h q (List.mem_cons_of_mem _ hq))]
    unfold parse_row_step
    rw [alookup_aset]
    rw [if_neg (h p (List.mem_cons_self _ _))]

/-- The value stored for the `j`-th column is `rowValue` at the token
offset accumulated from the widths of the earlier columns. -/
theorem parse_row_loop_value (tokens : List String) :
    ∀ (cols schema : List String) (st : AList String × ℕ) (j : ℕ),
      j < cols.length → cols.length = schema.length → cols.Nodup →
      alookup (((cols.zip schema).foldl (parse_row_step tokens) st).1) (cols.getD j "")
        = some (rowValue tokens (st.2 + expected_token_count (schema.take j))
            (schema.getD j "")) := by
  intro cols
  induction cols with
  | nil =>
    intro schema st j hj
    simp at hj
  | cons c cs ih =>
    intro schema st j hj hlen hnd
    cases schema with
    | nil => simp at hlen
    | cons t ts =>
      rw [List.zip_cons_cons, List.foldl_cons]
      cases j with
      | zero =>
        have hnotin : ∀ p ∈ cs.zip ts, p.1 ≠ c := by
          intro p hp hc
          have hmem : p.1 ∈ cs := List.of_mem_zip hp |>.1
          exact (List.nodup_cons.mp hnd).1 (hc ▸ hmem)
        rw [parse_row_frame tokens (cs.zip ts) _ _ (by simpa using hnotin)]
        unfold parse_row_step
        rw [alookup_aset]
        simp [expected_token_count]
      | succ j1 =>
        have hrec := ih ts (parse_row_step tokens st (c, t)) j1
          (by simpa using hj) (by simpa using hlen) (List.nodup_cons.mp hnd).2
        simp only [List.getD_cons_succ]
        rw [hrec]
        have hw : (parse_row_step tokens st (c, t)).2
            = st.2 + (if t = "time" then 2 else 1) := rfl
        have hexp : expected_token_count ((t :: ts).take (j1 + 1))
            = (if t = "time" then 2 else 1) + expected_token_count (ts.take j1) := by
          rw [List.take_succ_cons]
          simp [expected_token_count]
        rw [hw, hexp]
        congr 2
        omega

/-- C9 — schema-driven row parsing: the `j`-th declared column's value is
read at the token offset that allots two positions to every earlier `time`
column and one to every other column; at that offset a `time` column takes
the two tokens joined by one space and every other type takes one token;
and on the spec's Node-Depth row the `Time of Max Occurrence` column reads
`"0 11:55"` while every declared `num` column parses as a number. -/
theorem C9_report_row_schema :
    (∀ tokens cols schema j, j < cols.length → cols.length = schema.length → cols.Nodup →
        alookup (parse_row_by_schema tokens cols schema) (cols.getD j "")
          = some (rowValue tokens (expected_token_count (schema.take j)) (schema.getD j "")))
    ∧ (∀ tokens (i : ℕ), i + 1 < tokens.length →
        rowValue tokens i "time" = tokens.getD i "" ++ " " ++ tokens.getD (i + 1) "")
    ∧ (∀ tokens (i : ℕ) typ, typ ≠ "time" →
        rowValue tokens i typ = (if i < tokens.length then tokens.getD i "" else ""))
    ∧ alookup (parse_row_by_schema (pyWords "J1  JUNCTION  1.0  2.0  3.0  0  11:55  2.5")
        nodeDepthColumns nodeDepthSchema) "Time of Max Occurrence" = some "0 11:55"
    ∧ (((nodeDepthColumns.zip nodeDepthSchema).filter (fun cs => cs.2 == "num")).all
        (fun cs => (as_number ((alookup (parse_row_by_schema
            (pyWords "J1  JUNCTION  1.0  2.0  3.0  0  11:55  2.5")
            nodeDepthColumns nodeDepthSchema) cs.1).getD "")).isSome)) = true := by
  refine ⟨?_, ?_, ?_, by decide, by decide⟩
  · intro tokens cols schema j hj hlen hnd
    unfold parse_row_by_schema
    have h := parse_row_loop_value tokens cols schema ([], 0) j hj hlen hnd
    simpa using h
  · intro tokens i h
    unfold rowValue
    rw [if_pos rfl, if_pos h]
  · intro tokens i typ h
    unfold rowValue
    rw [if_neg h]

/-- Witness for C9 at the spec's Node-Depth row and its `time` column. -/
theorem C9_report_row_schema_witness :
    alookup (parse_row_by_schema (pyWords "J1  JUNCTION  1.0  2.0  3.0  0  11:55  2.5")
        nodeDepthColumns nodeDepthSchema) (nodeDepthColumns.getD 5 "")
      = some (rowValue (pyWords "J1  JUNCTION  1.0  2.0  3.0  0  11:55  2.5")
          (expected_token_count (nodeDepthSchema.take 5)) (nodeDepthSchema.getD 5 ""))
    ∧ rowValue (pyWords "J1  JUNCTION  1.0  2.0  3.0  0  11:55  2.5") 5 "time"
        = (pyWords "J1  JUNCTION  1.0  2.0  3.0  0  11:55  2.5").getD 5 "" ++ " "
          ++ (pyWords "J1  JUNCTION  1.0  2.0  3.0  0  11:55  2.5").getD 6 ""
    ∧ rowValue (pyWords "J1  JUNCTION  1.0  2.0  3.0  0  11:55  2.5") 2 "num"
        = (if 2 < (pyWords "J1  JUNCTION  1.0  2.0  3.0  0  11:55  2.5").length
           then (pyWords "J1  JUNCTION  1.0  2.0  3.0  0  11:55  2.5").getD 2 "" else "") :=
  ⟨C9_report_row_schema.1 (pyWords "J1  JUNCTION  1.0  2.0  3.0  0  11:55  2.5")
     nodeDepthColumns nodeDepthSchema 5 (by decide) (by decide) (by decide),
   C9_report_row_schema.2.1 (pyWords "J1  JUNCTION  1.0  2.0  3.0  0  11:55  2.5") 5 (by decide),
   C9_report_row_schema.2.2.1 (pyWords "J1  JUNCTION  1.0  2.0  3.0  0  11:55  2.5") 2 "num"
     (by decide)⟩

/-- Membership through a stable insert. -/
theorem mem_insertLe {α : Type} (le : α → α → Bool) (x y : α) (l : List α) :
    x ∈ insertLe le y l ↔ x = y ∨ x ∈ l := by
  induction l with
  | nil => simp [insertLe]
  | cons z zs ih =>
    unfold insertLe
    by_cases h : le z y = true
    · rw [if_pos h]
      simp only [List.mem_cons, ih]
      tauto
    · rw [if_neg h]
      simp only [List.mem_cons]

theorem mem_foldl_insertLe {α : Type} (le : α → α → Bool) (x : α) :
    ∀ (l acc : List α),
      (x ∈ l.foldl (fun a b => insertLe le b a) acc ↔ x ∈ acc ∨ x ∈ l) := by
  intro l
  induction l with
  | nil => simp
  | cons b rest ih =>
    intro acc
    rw [List.foldl_cons, ih, mem_insertLe]
    simp only [List.mem_cons]
    tauto

/-- Sorting permutes membership. -/
theorem mem_sortLe {α : Type} (le : α → α → Bool) (l : List α) (x : α) :
    x ∈ sortLe le l ↔ x ∈ l := by
  unfold sortLe
  rw [mem_foldl_insertLe]
  simp

/-- Query results are drawn from the inserted entries. -/
theorem query_candidates_subset (idx : SpatialIndex) (x y : ℚ) :
    ∀ e ∈ idx.query_candidates x y, e ∈ idx.entries := by
  intro e he
  unfold SpatialIndex.query_candidates at he
  obtain ⟨L, hL, heL⟩ := List.mem_flatten.mp he
  obtain ⟨dx, _, rfl⟩ := List.mem_map.mp hL
  obtain ⟨L2, hL2, heL2⟩ := List.mem_flatten.mp heL
  obtain ⟨dy, _, rfl⟩ := List.mem_map.mp hL2
  exact (List.mem_filter.mp heL2).1

/-- Every entry of the node index carries its id's coordinates in `g2`. -/
theorem node_index_inv (g2nodes : AList (ℚ × ℚ)) :
    ∀ (u2 : List String),
      ∀ e ∈ (node_index g2nodes u2).entries, alookup g2nodes e.1 = some (e.2.1, e.2.2) := by
  have main : ∀ (u2 : List String) (idx0 : SpatialIndex),
      (∀ e ∈ idx0.entries, alookup g2nodes e.1 = some (e.2.1, e.2.2)) →
      ∀ e ∈ (u2.foldl (fun idx new_id =>
          match alookup g2nodes new_id with
          | some p => idx.add new_id p.1 p.2
          | none => idx) idx0).entries,
        alookup g2nodes e.1 = some (e.2.1, e.2.2) := by
    intro u2
    induction u2 with
    | nil =>
      intro idx0 h
      exact h
    | cons n ns ih =>
      intro idx0 h
      rw [List.foldl_cons]
      apply ih
      cases hn : alookup g2nodes n with
      | none => exact h
      | some p =>
        intro e he
        unfold SpatialIndex.add at he
        rcases List.mem_append.mp he with h1 | h1
        · exact h e h1
        · rw [List.mem_singleton] at h1
          subst h1
          exact hn
  intro u2
  exact main u2 (SpatialIndex.mk 500 []) (by intro e he; simp at he)

/-- The inner candidate scan only ever reports a candidate of the scanned
list, at its true squared distance, strictly inside the tolerance. -/
theorem node_best_step_spec (eps_m tol_ft : ℚ) (p1 : ℚ × ℚ)
    (big : List (String × ℚ × ℚ)) :
    ∀ (l : List (String × ℚ × ℚ)) (b0 : Option (String × ℚ)),
      (∀ c ∈ l, c ∈ big) →
      (∀ s d2, b0 = some (s, d2) → ∃ c ∈ big, c.1 = s
        ∧ d2 = dist2_m2_xy p1 (c.2.1, c.2.2) ∧ d2 < eps_m ^ 2) →
      ∀ s d2, l.foldl (node_best_step eps_m tol_ft p1) b0 = some (s, d2) →
        ∃ c ∈ big, c.1 = s ∧ d2 = dist2_m2_xy p1 (c.2.1, c.2.2) ∧ d2 < eps_m ^ 2 := by
  intro l
  induction l with
  | nil =>
    intro b0 _ hb s d2 h
    exact hb s d2 h
  | cons c cs ih =>
    intro b0 hsub hb s d2 h
    rw [List.foldl_cons] at h
    refine ih _ (fun q hq => hsub q (List.mem_cons_of_mem _ hq)) ?_ s d2 h
    intro s1 d21 hstep
    unfold node_best_step at hstep
    split at hstep
    · exact hb s1 d21 hstep
    · cases hb0 : b0 with
      | none =>
        rw [hb0] at hstep
        simp only at hstep
        split at hstep
        · injection hstep with he
          injection he with he1 he2
          subst he1
          subst he2
          rename_i hlt
          exact ⟨c, hsub c (List.mem_cons_self _ _), rfl, rfl, hlt⟩
        · cases hstep
      | some b =>
        rw [hb0] at hstep
        simp only at hstep
        split at hstep
        · injection hstep with he
          injection he with he1 he2
          subst he1
          subst he2
          rename_i hlt
          exact ⟨c, hsub c (List.mem_cons_self _ _), rfl, rfl, hlt.1⟩
        · exact hb s1 d21 (hb0 ▸ hstep)

/-- Every collected pair carries real coordinates on both sides with a
squared distance strictly inside the tolerance. -/
theorem node_pairs_spec (eps_m tol_ft : ℚ) (g1nodes g2nodes : AList (ℚ × ℚ))
    (idx : SpatialIndex)
    (hidx : ∀ e ∈ idx.entries, alookup g2nodes e.1 = some (e.2.1, e.2.2)) :
    ∀ (u1 : List String) (ps0 : List (String × String × ℚ)),
      (∀ o n d2, (o, n, d2) ∈ ps0 → ∃ p1 p2, alookup g1nodes o = some p1
        ∧ alookup g2nodes n = some p2 ∧ d2 = dist2_m2_xy p1 p2 ∧ d2 < eps_m ^ 2) →
      ∀ o n d2, (o, n, d2) ∈ u1.foldl (node_pair_step eps_m tol_ft g1nodes idx) ps0 →
        ∃ p1 p2, alookup g1nodes o = some p1 ∧ alookup g2nodes n = some p2
          ∧ d2 = dist2_m2_xy p1 p2 ∧ d2 < eps_m ^ 2 := by
  intro u1
  induction u1 with
  | nil =>
    intro ps0 hp
    exact hp
  | cons a rest ih =>
    intro ps0 hp o n d2 h
    rw [List.foldl_cons] at h
    refine ih _ ?_ o n d2 h
    intro o1 n1 d21 hmem
    unfold node_pair_step at hmem
    cases ha : alookup g1nodes a with
    | none =>
      rw [ha] at hmem
      simp only [] at hmem
      exact hp o1 n1 d21 hmem
    | some p1 =>
      rw [ha] at hmem
      simp only [] at hmem
      cases hbest : (idx.query_candidates p1.1 p1.2).foldl
          (node_best_step eps_m tol_ft p1) none with
      | none =>
        rw [hbest] at hmem
        simp only [] at hmem
        exact hp o1 n1 d21 hmem
      | some b =>
        rw [hbest] at hmem
        simp only [] at hmem
        rcases List.mem_append.mp hmem with h1 | h1
        · exact hp o1 n1 d21 h1
        · rw [List.mem_singleton] at h1
          injection h1 with e1 e2
          injection e2 with e2 e3
          subst e1
          subst e2
          subst e3
          obtain ⟨c, hc, hcs, hcd, hclt⟩ := node_best_step_spec eps_m tol_ft p1
            (idx.query_candidates p1.1 p1.2) (idx.query_candidates p1.1 p1.2) none
            (fun q hq => hq) (by intro s d hx; cases hx) b.1 b.2 (by rw [hbest])
          refine ⟨p1, (c.2.1, c.2.2), ha, ?_, hcd, hclt⟩
          rw [← hcs]
          exact hidx c (query_candidates_subset idx p1.1 p1.2 c hc)

/-- The greedy assignment only produces pairs from the scanned list. -/
theorem greedy_claim_mem :
    ∀ (l : List (String × String × ℚ)) (acc : AList String × List String) (o n : String),
      (o, n) ∈ (l.foldl greedy_claim_step acc).1 →
      (o, n) ∈ acc.1 ∨ ∃ d2, (o, n, d2) ∈ l := by
  intro l
  induction l with
  | nil =>
    intro acc o n h
    exact Or.inl h
  | cons p ps ih =>
    intro acc o n h
    rw [List.foldl_cons] at h
    rcases ih _ o n h with h1 | ⟨d2, h1⟩
    · unfold greedy_claim_step at h1
      split at h1
      · exact Or.inl h1
      · rcases List.mem_append.mp h1 with h2 | h2
        · exact Or.inl h2
        · rw [List.mem_singleton] at h2
          injection h2 with e1 e2
          subst e1
          subst e2
          exact Or.inr ⟨p.2.2, List.mem_cons_self _ _⟩
    · exact Or.inr ⟨d2, List.mem_cons_of_mem _ h1⟩

/-- The greedy assignment uses each new id at most once. -/
theorem greedy_claim_nodup :
    ∀ (l : List (String × String × ℚ)) (acc : AList String × List String),
      (acc.1.map Prod.snd).Nodup → (∀ x ∈ acc.1.map Prod.snd, x ∈ acc.2) →
      ((l.foldl greedy_claim_step acc).1.map Prod.snd).Nodup := by
  intro l
  induction l with
  | nil =>
    intro acc h1 _
    exact h1
  | cons p ps ih =>
    intro acc h1 h2
    rw [List.foldl_cons]
    unfold greedy_claim_step
    split
    · exact ih acc h1 h2
    · rename_i hnc
      apply ih
      · rw [List.map_append]
        rw [List.nodup_append]
        refine ⟨h1, by simp, ?_⟩
        intro x hx hxs
        rw [List.map_singleton, List.mem_singleton] at hxs
        subst hxs
        exact hnc (by simpa [List.elem_iff] using h2 _ hx)
      · intro x hx
        rw [List.map_append, List.mem_append] at hx
        rcases hx with hx | hx
        · exact List.mem_append.mpr (Or.inl (h2 x hx))
        · rw [List.map_singleton, List.mem_singleton] at hx
          subst hx
          exact List.mem_append.mpr (Or.inr (by simp))

/-- C4 (amended) — the node pass: every assigned pair joins nodes with real
coordinates strictly within `eps` of each other (squared distances);
each new id is used at most once (claim-and-remove); but only the single
NEAREST candidate of each old id is ever collected — on the probe input the
code leaves `A` unmatched (its nearest, `X`, is claimed by the closer pair
`(B, X)`) instead of falling back to `Y` as the claim's collect-every-pair
algorithm would. -/
theorem C4_node_renames_amended :
    (∀ pr1 pr2 g1 g2 eps o n, (o, n) ∈ build_node_renames pr1 pr2 g1 g2 eps →
        ∃ p1 p2, alookup g1.nodes o = some p1 ∧ alookup g2.nodes n = some p2
          ∧ dist2_m2_xy p1 p2 < eps ^ 2)
    ∧ (∀ pr1 pr2 g1 g2 eps, ((build_node_renames pr1 pr2 g1 g2 eps).map Prod.snd).Nodup)
    ∧ build_node_renames c4pr1 c4pr2 c4g1 c4g2 (0.5 * FEET_TO_M) = [("B", "X")] := by
  refine ⟨?_, ?_, by decide⟩
  · intro pr1 pr2 g1 g2 eps o n hmem
    unfold build_node_renames at hmem
    rcases greedy_claim_mem _ _ o n hmem with h1 | ⟨d2, h2⟩
    · simp at h1
    · rw [mem_sortLe] at h2
      obtain ⟨p1, p2, hp1, hp2, hd, hlt⟩ := node_pairs_spec eps
        (eps / FEET_TO_M) g1.nodes g2.nodes _
        (node_index_inv g2.nodes _) _ []
        (by intro o1 n1 d21 hx; cases hx) o n d2 h2
      exact ⟨p1, p2, hp1, hp2, hd ▸ hlt⟩
  · intro pr1 pr2 g1 g2 eps
    unfold build_node_renames
    exact greedy_claim_nodup _ _ (by simp) (by simp)

/-- C4 counterexample — the code does not collect every in-range pair: on
the probe input it produces only `{B: X}` (A stays unmatched although `Y`
is within 0.5 ft), while the claim's algorithm (collect all pairs, global
sort, claim-and-remove) also matches `A` to `Y`. -/
theorem C4_node_renames_counterexample :
    build_node_renames c4pr1 c4pr2 c4g1 c4g2 (0.5 * FEET_TO_M)
        ≠ node_renames_claimC4 c4pr1 c4pr2 c4g1 c4g2 (0.5 * FEET_TO_M)
    ∧ node_renames_claimC4 c4pr1 c4pr2 c4g1 c4g2 (0.5 * FEET_TO_M)
        = [("B", "X"), ("A", "Y")]
    ∧ alookup (build_node_renames c4pr1 c4pr2 c4g1 c4g2 (0.5 * FEET_TO_M)) "A" = none := by
  refine ⟨?_, by decide, by decide⟩
  decide

/-- Witness for C4's amended theorem at the probe input. -/
theorem C4_node_renames_amended_witness :
    ("B", "X") ∈ build_node_renames c4pr1 c4pr2 c4g1 c4g2 (0.5 * FEET_TO_M)
    ∧ ∃ p1 p2, alookup c4g1.nodes "B" = some p1 ∧ alookup c4g2.nodes "X" = some p2
        ∧ dist2_m2_xy p1 p2 < (0.5 * FEET_TO_M) ^ 2 :=
  ⟨by decide,
   C4_node_renames_amended.1 c4pr1 c4pr2 c4g1 c4g2 (0.5 * FEET_TO_M) "B" "X" (by decide)⟩

theorem mem_sortStr (l : List String) (x : String) : x ∈ sortStr l ↔ x ∈ l :=
  mem_sortLe _ l x

/-- Keys after a dict assignment. -/
theorem mem_akeys_aset {α : Type} (m : AList α) (k k' : String) (v : α)
    (h : k' ∈ akeys (aset m k v)) : k' ∈ akeys m ∨ k' = k := by
  induction m with
  | nil =>
    rw [aset] at h
    rcases List.mem_cons.mp h with h1 | h1
    · exact Or.inr h1
    · simp at h1
  | cons p rest ih =>
    obtain ⟨k0, v0⟩ := p
    rw [aset] at h
    by_cases h0 : k0 = k
    · rw [if_pos h0] at h
      rcases List.mem_cons.mp h with h1 | h1
      · subst h1
        exact Or.inl (List.mem_cons.mpr (Or.inl rfl))
      · exact Or.inl (by simpa [akeys] using Or.inr h1)
    · rw [if_neg h0] at h
      rcases List.mem_cons.mp h with h1 | h1
      · exact Or.inl (by simpa [akeys] using Or.inl h1)
      · rcases ih h1 with h2 | h2
        · exact Or.inl (by simpa [akeys] using Or.inr h2)
        · exact Or.inr h2

/-- Every emitted section of the compare loop carries the defining
added/removed/changed expressions for its name. -/
theorem compare_fold_spec (secs1 secs2 : AList (AList (List String)))
    (hd1 hd2 : AList (List String)) :
    ∀ (l : List String) (acc : AList DiffSection × AList (List String)),
      (∀ sec d, (sec, d) ∈ acc.1 →
        d.added = comp_added secs1 secs2 sec ∧ d.removed = comp_added secs2 secs1 sec
          ∧ d.changed = comp_changed secs1 secs2 sec) →
      ∀ sec d, (sec, d) ∈ (l.foldl (compare_sections_step secs1 secs2 hd1 hd2) acc).1 →
        d.added = comp_added secs1 secs2 sec ∧ d.removed = comp_added secs2 secs1 sec
          ∧ d.changed = comp_changed secs1 secs2 sec := by
  intro l
  induction l with
  | nil =>
    intro acc h
    exact h
  | cons a rest ih =>
    intro acc h
    rw [List.foldl_cons]
    apply ih
    intro sec d hm
    simp only [compare_sections_step] at hm
    split at hm
    · rcases List.mem_append.mp hm with h1 | h1
      · exact h sec d h1
      · rw [List.mem_singleton] at h1
        injection h1 with e1 e2
        subst e1
        subst e2
        exact ⟨rfl, rfl, rfl⟩
    · exact h sec d hm

theorem compare_sections_spec (secs1 secs2 : AList (AList (List String)))
    (hd1 hd2 : AList (List String)) :
    ∀ sec d, (sec, d) ∈ (compare_sections secs1 secs2 hd1 hd2).1 →
      d.added = comp_added secs1 secs2 sec ∧ d.removed = comp_added secs2 secs1 sec
        ∧ d.changed = comp_changed secs1 secs2 sec := by
  intro sec d hm
  exact compare_fold_spec secs1 secs2 hd1 hd2 _ ([], [])
    (by intro s dd hdd; simp at hdd) sec d hm

/-- `added` is exactly "in doc2's section but not doc1's". -/
theorem mem_comp_added (secs1 secs2 : AList (AList (List String))) (sec x : String) :
    x ∈ comp_added secs1 secs2 sec ↔
      (x ∈ akeys ((alookup secs2 sec).getD []) ∧ x ∉ akeys ((alookup secs1 sec).getD [])) := by
  unfold comp_added
  rw [mem_sortStr, List.mem_filter]
  simp [List.elem_iff]

/-- `changed` ids live in both documents' sections. -/
theorem mem_comp_changed_keys (secs1 secs2 : AList (AList (List String))) (sec x : String)
    (hx : x ∈ akeys (comp_changed secs1 secs2 sec)) :
    x ∈ akeys ((alookup secs1 sec).getD []) ∧ x ∈ akeys ((alookup secs2 sec).getD []) := by
  obtain ⟨b, hmem, hfst⟩ := List.mem_map.mp hx
  obtain ⟨kv, hkv, heq⟩ := List.mem_filterMap.mp hmem
  cases h2 : alookup ((alookup secs2 sec).getD []) kv.1 with
  | none =>
    rw [h2] at heq
    cases heq
  | some v2 =>
    rw [h2] at heq
    split at heq
    split at heq
    · have hp := Option.some.inj heq
      have hk : kv.1 = b.1 := congrArg Prod.fst hp
      rw [← hfst, ← hk]
      constructor
      · exact List.mem_map.mpr ⟨kv, hkv, rfl⟩
      · exact List.mem_map.mpr ⟨(kv.1, v2), alookup_mem h2, rfl⟩
    · cases heq
    · contradiction

/-- One compare-produced section is pairwise disjoint. -/
theorem compare_entry_disjoint (secs1 secs2 : AList (AList (List String)))
    (hd1 hd2 : AList (List String)) (sec : String) (d : DiffSection)
    (hm : (sec, d) ∈ (compare_sections secs1 secs2 hd1 hd2).1) : disjointDiff d := by
  obtain ⟨ha, hr, hc⟩ := compare_sections_spec secs1 secs2 hd1 hd2 sec d hm
  refine ⟨?_, ?_, ?_⟩
  · intro x hx hx2
    rw [ha, mem_comp_added] at hx
    rw [hr, mem_comp_added] at hx2
    exact hx.2 hx2.1
  · intro x hx hx2
    rw [ha, mem_comp_added] at hx
    rw [hc] at hx2
    exact hx.2 (mem_comp_changed_keys secs1 secs2 sec x hx2).1
  · intro x hx hx2
    rw [hr, mem_comp_added] at hx
    rw [hc] at hx2
    exact hx.2 (mem_comp_changed_keys secs1 secs2 sec x hx2).2

/-- The inner fold of the post-pass preserves the invariant. -/
theorem force_item_fold_inv (pr1 pr2 : INPParseResult) (renames : AList (AList String))
    (sec : String) (mapping : AList String) (hm : (sec, mapping) ∈ renames) :
    ∀ (items : List (String × String)) (acc2 : AList DiffSection × AList (List String)),
      (∀ p ∈ items, p ∈ mapping) → forcedInv renames acc2.1 →
      forcedInv renames ((items.foldl (force_item_step pr1 pr2 sec) acc2).1) := by
  intro items
  induction items with
  | nil =>
    intro acc2 _ h
    exact h
  | cons p ps ih =>
    intro acc2 hsub hinv
    rw [List.foldl_cons]
    refine ih _ (fun q hq => hsub q (List.mem_cons_of_mem _ hq)) ?_
    simp only [force_item_step]
    split
    · exact hinv
    · intro sec' dX hl
      simp only [] at hl
      rw [alookup_aset] at hl
      by_cases hss : sec = sec'
      · rw [if_pos hss] at hl
        injection hl with hl1
        subst hl1
        subst hss
        have hrenid : p.1 ∈ akeys mapping :=
          List.mem_map.mpr ⟨p, hsub p (List.mem_cons_self _ _), rfl⟩
        cases hs : alookup acc2.1 sec with
        | none =>
          refine ⟨⟨?_, ?_, ?_⟩, ?_⟩
          · intro x hx
            simp [emptyDiffSection] at hx
          · intro x hx
            simp [emptyDiffSection] at hx
          · intro x hx
            simp [emptyDiffSection] at hx
          · intro id m _ _
            constructor
            · simp [emptyDiffSection]
            · simp [emptyDiffSection]
        | some d0 =>
          obtain ⟨⟨hd1, hd2, hd3⟩, hnr⟩ := hinv sec d0 hs
          refine ⟨⟨hd1, ?_, ?_⟩, ?_⟩
          · intro x hx hx2
            rcases mem_akeys_aset _ _ _ _ hx2 with h1 | h1
            · exact hd2 x hx h1
            · subst h1
              exact (hnr p.1 mapping hm hrenid).1 hx
          · intro x hx hx2
            rcases mem_akeys_aset _ _ _ _ hx2 with h1 | h1
            · exact hd3 x hx h1
            · subst h1
              exact (hnr p.1 mapping hm hrenid).2 hx
          · intro id m hm2 hid
            exact hnr id m hm2 hid
      · rw [if_neg hss] at hl
        exact hinv sec' dX hl

/-- The outer fold of the post-pass preserves the invariant. -/
theorem force_sec_fold_inv (pr1 pr2 : INPParseResult) (renames : AList (AList String)) :
    ∀ (l : List (String × AList String)) (acc : AList DiffSection × AList (List String)),
      (∀ sm ∈ l, sm ∈ renames) → forcedInv renames acc.1 →
      forcedInv renames ((l.foldl (force_sec_step pr1 pr2) acc).1) := by
  intro l
  induction l with
  | nil =>
    intro acc _ h
    exact h
  | cons sm rest ih =>
    intro acc hsub hinv
    rw [List.foldl_cons]
    refine ih _ (fun q hq => hsub q (List.mem_cons_of_mem _ hq)) ?_
    simp only [force_sec_step]
    refine force_item_fold_inv pr1 pr2 renames sm.1 sm.2
      (hsub sm (List.mem_cons_self _ _)) _ _ (fun p hp => hp) ?_
    split
    · exact hinv
    · intro sec' dX hl
      simp only [] at hl
      rw [alookup_aset] at hl
      by_cases hss : sm.1 = sec'
      · rw [if_pos hss] at hl
        injection hl with hl1
        subst hl1
        refine ⟨⟨?_, ?_, ?_⟩, ?_⟩
        · intro x hx
          simp [emptyDiffSection] at hx
        · intro x hx
          simp [emptyDiffSection] at hx
        · intro x hx
          simp [emptyDiffSection] at hx
        · intro id m _ _
          exact ⟨by simp [emptyDiffSection], by simp [emptyDiffSection]⟩
      · rw [if_neg hss] at hl
        exact hinv sec' dX hl

/-- C6 (amended) — the three id sets of every section of
`compare_sections`' diff are pairwise disjoint; the force-renamed post-pass
preserves this PROVIDED every renamed old id occurs in that section's key
set on both sides (the situation the apply phase guarantees for
same-section renames); a cross-section rename violates the proviso and can
put an id in both `removed` and `changed` (see the counterexample). -/
theorem C6_disjointness_amended :
    (∀ secs1 secs2 hd1 hd2 sec d,
        (sec, d) ∈ (compare_sections secs1 secs2 hd1 hd2).1 → disjointDiff d)
    ∧ (∀ secs1 secs2 hd1 hd2 headers renames pr1 pr2,
        (∀ sec m id, (sec, m) ∈ renames → id ∈ akeys m →
          id ∈ akeys ((alookup secs1 sec).getD [])
            ∧ id ∈ akeys ((alookup secs2 sec).getD [])) →
        ∀ sec d,
          alookup (force_renamed_changed (compare_sections secs1 secs2 hd1 hd2).1
            headers renames pr1 pr2).1 sec = some d → disjointDiff d) := by
  constructor
  · intro secs1 secs2 hd1 hd2 sec d hm
    exact compare_entry_disjoint secs1 secs2 hd1 hd2 sec d hm
  · intro secs1 secs2 hd1 hd2 headers renames pr1 pr2 hdoc sec d hl
    have hinit : forcedInv renames (compare_sections secs1 secs2 hd1 hd2).1 := by
      intro sec' d0 hl0
      have hmem := alookup_mem hl0
      refine ⟨compare_entry_disjoint secs1 secs2 hd1 hd2 sec' d0 hmem, ?_⟩
      intro id m hm hid
      obtain ⟨ha, hr, _⟩ := compare_sections_spec secs1 secs2 hd1 hd2 sec' d0 hmem
      obtain ⟨hk1, hk2⟩ := hdoc sec' m id hm hid
      constructor
      · intro hx
        rw [ha, mem_comp_added] at hx
        exact hx.2 hk1
      · intro hx
        rw [hr, mem_comp_added] at hx
        exact hx.2 hk2
    unfold force_renamed_changed at hl
    exact (force_sec_fold_inv pr1 pr2 renames renames
      ((compare_sections secs1 secs2 hd1 hd2).1, headers) (fun q hq => hq) hinit sec d hl).1

/-- Witness for C6's amended theorem at a concrete same-section rename. -/
theorem C6_disjointness_amended_witness :
    disjointDiff ⟨["J9"], [], [("J1", (["1"], ["2"]))]⟩
    ∧ disjointDiff ⟨[], [], [("J1", (["1"], ["2"]))]⟩ := by
  constructor
  · exact C6_disjointness_amended.1 [("JUNCTIONS", [("J1", ["1"])])]
      [("JUNCTIONS", [("J1", ["2"]), ("J9", ["3"])])] [] [] "JUNCTIONS"
      ⟨["J9"], [], [("J1", (["1"], ["2"]))]⟩ (by decide)
  · refine C6_disjointness_amended.2 [("JUNCTIONS", [("J1", ["1"])])]
      [("JUNCTIONS", [("J1", ["2"])])] [] [] [] [("JUNCTIONS", [("J1", "J2")])]
      c6pr1 c6pr2 ?_ "JUNCTIONS" ⟨[], [], [("J1", (["1"], ["2"]))]⟩ (by decide)
    intro sec m id hm hid
    rw [List.mem_singleton] at hm
    have h1 : sec = "JUNCTIONS" := congrArg Prod.fst hm
    have h2 : m = [("J1", "J2")] := congrArg Prod.snd hm
    subst h1
    subst h2
    have h3 : id = "J1" := by simpa [akeys] using hid
    subst h3
    exact ⟨by decide, by decide⟩

end SWMM
